import Mathlib

/-!
Verification of the evida-scribe webhook/extraction core against its
natural-language specification.

The development is a shallow embedding of the Python sources:

* `src/server_stub/elevenlabs_webhook.py` — signature verification
  (`verify_signature`, `_parse_signature_header`) and the webhook handler
  (`elevenlabs_webhook`), including its transcript-normalization block;
* `src/llm/plan_generator.py` — the deterministic tail of
  `generate_lifestyle_plan` (JSON decode + schema validation of the model's
  raw response; the network call itself is an external collaborator, its
  response text is passed in as an argument);
* `src/models.py` — the pydantic models `Domain`, `LifestylePlan`,
  `TranscriptUtterance`, `SessionTranscript`;
* `src/utils/io_utils.py` — `save_session_outputs`, `save_failure_outputs`
  (the filesystem is modelled as the returned list of
  `(file name, file content)` pairs under the session directory).

Python semantics that the sources lean on are embedded explicitly:
truthiness, `str.strip`/`split`/`startswith`, `int(...)` parsing,
UTF-8 encode/decode (strict), HMAC-SHA-256 over bytes, `json.loads` /
`json.dump(..., indent=2)` on the JSON fragment the program exercises, and
pydantic validation with its default `extra='ignore'` policy.  Machine
integers do not occur (Python ints are unbounded); byte values are `Nat`s
below 256 and 32-bit words are `Nat`s reduced mod 2^32 where SHA-256
requires it.  Fallible Python code (raised exceptions) is embedded with
`Except PyErr`.
-/

/-- Exceptions of the Python runtime that the embedded code can raise. -/
inductive PyErr where
  /-- `bytes.decode("utf-8")` on invalid UTF-8. -/
  | unicodeDecodeError
  /-- attribute access (e.g. `.get`) on an object lacking it. -/
  | attributeError
  /-- operation on an inappropriate type (e.g. iterating an int). -/
  | typeError
  /-- pydantic `ValidationError`. -/
  | validationError
deriving DecidableEq, Repr

/-! ## Python string helpers -/

/-- Python `str` whitespace for `strip()` / `int()`: the ASCII whitespace
characters (the sources only ever meet ASCII header text). -/
def pyWs (c : Char) : Bool :=
  c = ' ' || c = '\t' || c = '\n' || c = '\r' || c = '\x0b' || c = '\x0c'

/-- Python `str.strip()` (no argument): remove leading and trailing
whitespace. -/
def pyStrip (s : String) : String :=
  String.mk (((s.data.dropWhile pyWs).reverse.dropWhile pyWs).reverse)

/-- Python `"...".split(",")` on the character list: split at every comma,
keeping empty pieces (so `"".split(",") == [""]`). -/
def pySplitCommaChars : List Char → List (List Char)
  | [] => [[]]
  | c :: rest =>
    match pySplitCommaChars rest with
    | [] => [[c]]
    | h :: t => if c = ',' then [] :: h :: t else (c :: h) :: t

/-- Python `s.split(",")` as strings. -/
def pySplitComma (s : String) : List String :=
  (pySplitCommaChars s.data).map String.mk

/-- Digit tail of Python `int(...)`: after the first digit, accept digits
with single underscores allowed between digits (`int("1_0") == 10`). -/
def pyIntDigitsCore (acc : Nat) : List Char → Option Nat
  | [] => some acc
  | c :: cs =>
    if c.isDigit then pyIntDigitsCore (acc * 10 + (c.toNat - 48)) cs
    else if c = '_' then
      match cs with
      | d :: cs' => if d.isDigit then pyIntDigitsCore (acc * 10 + (d.toNat - 48)) cs' else none
      | [] => none
    else none

/-- Unsigned part of Python `int(...)`: a leading digit followed by the
digit/underscore tail. -/
def pyIntDigits : List Char → Option Nat
  | [] => none
  | c :: cs => if c.isDigit then pyIntDigitsCore (c.toNat - 48) cs else none

/-- Python `int(s)` for a decimal string: surrounding whitespace, an
optional sign, then digits (single underscores permitted between digits).
`none` models a raised `ValueError`.  (Python additionally accepts
non-ASCII decimal digits; the sources only meet ASCII header text, which
is the fragment modelled here.) -/
def pyInt (s : String) : Option Int :=
  match (pyStrip s).data with
  | '+' :: cs => (pyIntDigits cs).map Int.ofNat
  | '-' :: cs => (pyIntDigits cs).map (fun n => -(Int.ofNat n))
  | cs => (pyIntDigits cs).map Int.ofNat

/-- Python `s.split("=", 1)[1]`: everything after the first `'='`.  Callers
below only use it on strings that are known to contain `'='` (they start
with `"t="`, `"v1="` or `"v0="`); on a string without `'='` Python would
raise `IndexError` instead. -/
def afterFirstEq (s : String) : String :=
  match s.data.dropWhile (fun c => c ≠ '=') with
  | _ :: rest => String.mk rest
  | [] => ""

/-- Truthiness of Python `Optional[str]` (`None` and `""` are falsy). -/
def pyTruthyOptStr : Option String → Bool
  | none => false
  | some s => s ≠ ""

/-- Python `s.startswith(pre)`. -/
def pyStartsWith (s pre : String) : Bool :=
  pre.data.isPrefixOf s.data

/-! ## SHA-256 and HMAC-SHA-256 (`hashlib` / `hmac`)

Bytes are `Nat`s below 256, 32-bit words are `Nat`s kept below 2^32. -/

/-- 32-bit modular addition. -/
def add32 (a b : Nat) : Nat := (a + b) % 4294967296

/-- 32-bit rotate right. -/
def rotr32 (n x : Nat) : Nat := (x >>> n) ||| ((x <<< (32 - n)) % 4294967296)

/-- SHA-256 Σ₀. -/
def bigS0 (x : Nat) : Nat := rotr32 2 x ^^^ rotr32 13 x ^^^ rotr32 22 x

/-- SHA-256 Σ₁. -/
def bigS1 (x : Nat) : Nat := rotr32 6 x ^^^ rotr32 11 x ^^^ rotr32 25 x

/-- SHA-256 σ₀. -/
def smallS0 (x : Nat) : Nat := rotr32 7 x ^^^ rotr32 18 x ^^^ (x >>> 3)

/-- SHA-256 σ₁. -/
def smallS1 (x : Nat) : Nat := rotr32 17 x ^^^ rotr32 19 x ^^^ (x >>> 10)

/-- SHA-256 choice function. -/
def chf (x y z : Nat) : Nat := (x &&& y) ^^^ ((x ^^^ 4294967295) &&& z)

/-- SHA-256 majority function. -/
def majf (x y z : Nat) : Nat := (x &&& y) ^^^ (x &&& z) ^^^ (y &&& z)

/-- The SHA-256 round constants. -/
def K64 : List Nat :=
  [1116352408, 1899447441, 3049323471, 3921009573, 961987163, 1508970993,
   2453635748, 2870763221, 3624381080, 310598401, 607225278, 1426881987,
   1925078388, 2162078206, 2614888103, 3248222580, 3835390401, 4022224774,
   264347078, 604807628, 770255983, 1249150122, 1555081692, 1996064986,
   2554220882, 2821834349, 2952996808, 3210313671, 3336571891, 3584528711,
   113926993, 338241895, 666307205, 773529912, 1294757372, 1396182291,
   1695183700, 1986661051, 2177026350, 2456956037, 2730485921, 2820302411,
   3259730800, 3345764771, 3516065817, 3600352804, 4094571909, 275423344,
   430227734, 506948616, 659060556, 883997877, 958139571, 1322822218,
   1537002063, 1747873779, 1955562222, 2024104815, 2227730452, 2361852424,
   2428436474, 2756734187, 3204031479, 3329325298]

/-- The SHA-256 initial hash state. -/
def H0 : List Nat :=
  [1779033703, 3144134277, 1013904242, 2773480762,
   1359893119, 2600822924, 528734635, 1541459225]

/-- One message-schedule extension word, from the current schedule. -/
def extendW (w : List Nat) : Nat :=
  add32 (add32 (smallS1 (w.getD (w.length - 2) 0)) (w.getD (w.length - 7) 0))
        (add32 (smallS0 (w.getD (w.length - 15) 0)) (w.getD (w.length - 16) 0))

/-- Extend the 16-word schedule by `n` more words. -/
def buildW (w : List Nat) : Nat → List Nat
  | 0 => w
  | n+1 => buildW (w ++ [extendW w]) n

/-- One SHA-256 compression round on the eight-word state. -/
def roundStep (st : List Nat) (kw : Nat × Nat) : List Nat :=
  match st with
  | [a, b, c, d, e, f, g, h] =>
    let t1 := add32 h (add32 (bigS1 e) (add32 (chf e f g) (add32 kw.1 kw.2)))
    let t2 := add32 (bigS0 a) (majf a b c)
    [add32 t1 t2, a, b, c, add32 d t1, e, f, g]
  | other => other

/-- Split a list into `n` consecutive chunks of size `sz`. -/
def chunksOf : Nat → Nat → List Nat → List (List Nat)
  | 0, _, _ => []
  | n+1, sz, l => l.take sz :: chunksOf n sz (l.drop sz)

/-- Big-endian word from four bytes. -/
def word4 (l : List Nat) : Nat := l.foldl (fun acc x => acc * 256 + x) 0

/-- SHA-256 compression of one 64-byte block into the running state. -/
def compress (h : List Nat) (block : List Nat) : List Nat :=
  let w0 := (chunksOf 16 4 block).map word4
  let w := buildW w0 48
  let st := (K64.zip w).foldl roundStep h
  (h.zip st).map (fun p => add32 p.1 p.2)

/-- Big-endian 8-byte encoding. -/
def be64 (n : Nat) : List Nat :=
  [(n >>> 56) % 256, (n >>> 48) % 256, (n >>> 40) % 256, (n >>> 32) % 256,
   (n >>> 24) % 256, (n >>> 16) % 256, (n >>> 8) % 256, n % 256]

/-- Big-endian 4-byte encoding. -/
def be32 (n : Nat) : List Nat :=
  [(n >>> 24) % 256, (n >>> 16) % 256, (n >>> 8) % 256, n % 256]

/-- SHA-256 padding: `0x80`, zeros to 56 mod 64, then the bit length. -/
def padMsg (msg : List Nat) : List Nat :=
  let len := msg.length
  let zeros := (64 + 55 - (len % 64)) % 64
  msg ++ [128] ++ List.replicate zeros 0 ++ be64 (8 * len)

/-- SHA-256 of a byte list, as the 32 digest bytes. -/
def sha256 (msg : List Nat) : List Nat :=
  let padded := padMsg msg
  let blocks := chunksOf (padded.length / 64) 64 padded
  let h := blocks.foldl compress H0
  (h.map be32).flatten

/-- HMAC-SHA-256 (`hmac.new(key, msg, hashlib.sha256)`), digest bytes. -/
def hmacSha256 (key msg : List Nat) : List Nat :=
  let k1 := if 64 < key.length then sha256 key else key
  let k0 := k1 ++ List.replicate (64 - k1.length) 0
  let inner := sha256 ((k0.map (fun b => b ^^^ 0x36)) ++ msg)
  sha256 ((k0.map (fun b => b ^^^ 0x5c)) ++ inner)

/-- Lowercase hex digit. -/
def hexDigitChar (n : Nat) : Char := Char.ofNat (if n < 10 then 48 + n else 87 + n)

/-- Lowercase hex string of a byte list (`.hexdigest()`). -/
def bytesToHex (bs : List Nat) : List Char :=
  (bs.map (fun b => [hexDigitChar (b / 16), hexDigitChar (b % 16)])).flatten

/-- `hmac.new(key, msg, hashlib.sha256).hexdigest()`. -/
def hmacSha256Hex (key msg : List Nat) : String :=
  String.mk (bytesToHex (hmacSha256 key msg))

/-! ## UTF-8 (`str.encode` / `bytes.decode`, strict) -/

/-- UTF-8 encoding of one unicode scalar value. -/
def utf8EncodeChar (c : Char) : List Nat :=
  let n := c.toNat
  if n < 0x80 then [n]
  else if n < 0x800 then [0xC0 + n / 64, 0x80 + n % 64]
  else if n < 0x10000 then [0xE0 + n / 4096, 0x80 + (n / 64) % 64, 0x80 + n % 64]
  else [0xF0 + n / 262144, 0x80 + (n / 4096) % 64, 0x80 + (n / 64) % 64, 0x80 + n % 64]

/-- Python `s.encode("utf-8")`. -/
def utf8Encode (s : String) : List Nat :=
  (s.data.map utf8EncodeChar).flatten

/-- Is `b` a UTF-8 continuation byte? -/
def isCont (b : Nat) : Bool := 0x80 ≤ b && b ≤ 0xBF

/-- Python `bytes.decode("utf-8")` (strict): rejects malformed sequences,
overlong encodings and surrogates.  `none` models a raised
`UnicodeDecodeError`. -/
def utf8DecodeChars : List Nat → Option (List Char)
  | [] => some []
  | b :: rest =>
    if b < 0x80 then
      (utf8DecodeChars rest).map (fun cs => Char.ofNat b :: cs)
    else if 0xC2 ≤ b && b ≤ 0xDF then
      match rest with
      | c1 :: rest' =>
        if isCont c1 then
          (utf8DecodeChars rest').map (fun cs => Char.ofNat ((b - 0xC0) * 64 + (c1 - 0x80)) :: cs)
        else none
      | [] => none
    else if 0xE0 ≤ b && b ≤ 0xEF then
      match rest with
      | c1 :: c2 :: rest' =>
        let lo1 := if b = 0xE0 then 0xA0 else 0x80
        let hi1 := if b = 0xED then 0x9F else 0xBF
        if (lo1 ≤ c1 && c1 ≤ hi1) && isCont c2 then
          (utf8DecodeChars rest').map
            (fun cs => Char.ofNat ((b - 0xE0) * 4096 + (c1 - 0x80) * 64 + (c2 - 0x80)) :: cs)
        else none
      | _ => none
    else if 0xF0 ≤ b && b ≤ 0xF4 then
      match rest with
      | c1 :: c2 :: c3 :: rest' =>
        let lo1 := if b = 0xF0 then 0x90 else 0x80
        let hi1 := if b = 0xF4 then 0x8F else 0xBF
        if (lo1 ≤ c1 && c1 ≤ hi1) && (isCont c2 && isCont c3) then
          (utf8DecodeChars rest').map
            (fun cs =>
              Char.ofNat ((b - 0xF0) * 262144 + (c1 - 0x80) * 4096 + (c2 - 0x80) * 64 + (c3 - 0x80)) :: cs)
        else none
      | _ => none
    else none

/-- Python `payload.decode("utf-8")` as a `String`. -/
def utf8Decode (bs : List Nat) : Option String :=
  (utf8DecodeChars bs).map String.mk

/-! ## Signature verification (`src/server_stub/elevenlabs_webhook.py`) -/

/-- The header split at commas with each part stripped —
`[p.strip() for p in signature_header.split(",")]`. -/
def signatureParts (signature_header : String) : List String :=
  (pySplitComma signature_header).map pyStrip

/-- The first part of the fallback chain `next(v1 parts) or next(v0
parts)`: the first `v1=` part if any, else the first `v0=` part. -/
def findVPart (parts : List String) : Option String :=
  match parts.find? (fun p => pyStartsWith p ("v1=")) with
  | some v => some v
  | none => parts.find? (fun p => pyStartsWith p ("v0="))

/-- `_parse_signature_header` (lines 21–38): split the header at commas,
strip each part, take the first `t=` part (`t_part`) and the first `v1=`
part falling back to the first `v0=` part (`v_part`), and parse the
timestamp with `int(...)`.  Returns `none` for the Python `(None, None)`
failure result (including the caught `ValueError` from `int`). -/
def parse_signature_header (signature_header : String) : Option (Int × String) :=
  match (signatureParts signature_header).find? (fun p => pyStartsWith p ("t=")),
        findVPart (signatureParts signature_header) with
  | some tp, some vp =>
    match pyInt (afterFirstEq tp) with
    | some ts => some (ts, afterFirstEq vp)
    | none => none
  | _, _ => none

/-- Lines 53–69 of `verify_signature`, after a successful header parse:
the staleness gate (`timestamp < int(time.time()) - 30 * 60`), then
`full_payload = f"{timestamp}.{payload.decode('utf-8')}"` (an uncaught
`UnicodeDecodeError` on invalid UTF-8), then the timing-safe —
semantically plain — equality of `"v0=" + hexdigest` against the header
value. -/
def verify_parsed (s : String) (now : Int) (payload : List Nat)
    (timestamp : Int) (v0_sig : String) : Except PyErr Bool :=
  if timestamp < now - 30 * 60 then .ok false
  else
    match utf8Decode payload with
    | none => .error .unicodeDecodeError
    | some text =>
      .ok ("v0=" ++ hmacSha256Hex (utf8Encode s) (utf8Encode (toString timestamp ++ "." ++ text))
            = v0_sig)

/-- Lines 48–69 of `verify_signature`, once the secret is known to be
configured and a truthy header string is in hand: parse the header,
reject on parse failure, then `verify_parsed`. -/
def verify_with_header (s : String) (now : Int) (payload : List Nat)
    (h : String) : Except PyErr Bool :=
  match parse_signature_header h with
  | none => .ok false
  | some ts_sig => verify_parsed s now payload ts_sig.1 ts_sig.2

/-- `verify_signature` (lines 41–69).  `secret` is the module-level
`WEBHOOK_SECRET` (an `Optional[str]` read from settings), `now` is
`int(time.time())`, `payload` the raw request bytes, `signature_header`
the header value (`none` when the header is absent; a falsy — absent or
empty — header is rejected once a secret is configured). -/
def verify_signature (secret : Option String) (now : Int) (payload : List Nat)
    (signature_header : Option String) : Except PyErr Bool :=
  if pyTruthyOptStr secret = false then .ok true
  else
    match signature_header with
    | none => .ok false
    | some h =>
      if h = "" then .ok false
      else verify_with_header (secret.getD ("")) now payload h

/-! ## JSON values (`json.loads` / `json.dump`)

`Json` is the value domain of Python's `json` module as the program meets
it.  Numbers are embedded as integers: the sources never produce or
consume non-integer JSON numbers, and the parser below answers `none`
(rather than mis-parsing) on the unmodelled number forms. -/

/-- A parsed JSON document / Python jsonable value.  Objects keep their
fields in order; lookups (`dictGet`) give the last occurrence of a key,
matching Python `dict` construction from repeated keys. -/
inductive Json where
  | null
  | bool (b : Bool)
  | num (n : Int)
  | str (s : String)
  | arr (elements : List Json)
  | obj (fields : List (String × Json))

/-- Python `dict` lookup on an ordered field list: the last binding of a
key wins (repeated keys in a JSON text overwrite earlier ones). -/
def dictGet : List (String × Json) → String → Option Json
  | [], _ => none
  | kv :: rest, k =>
    match dictGet rest k with
    | some v => some v
    | none => if kv.1 = k then some kv.2 else none

/-- Python truthiness of a jsonable value: `None`, `False`, `0`, `""`,
`[]` and the empty dict are falsy, everything else truthy. -/
def jTruthy : Json → Bool
  | .null => false
  | .bool b => b
  | .num n => n != 0
  | .str s => s != ""
  | .arr xs => !xs.isEmpty
  | .obj fs => !fs.isEmpty

/-- JSON whitespace, as `json.loads` skips it. -/
def wsJson (c : Char) : Bool := c = ' ' || c = '\n' || c = '\t' || c = '\r'

/-- Skip JSON whitespace. -/
def skipWs (l : List Char) : List Char := l.dropWhile wsJson

/-- Value of one hex digit. -/
def hexVal (c : Char) : Option Nat :=
  if c.isDigit then some (c.toNat - 48)
  else if 'a' ≤ c && c ≤ 'f' then some (c.toNat - 87)
  else if 'A' ≤ c && c ≤ 'F' then some (c.toNat - 55)
  else none

/-- The value of four hex digits, when all four are hex digits. -/
def hexQuad (h1 h2 h3 h4 : Char) : Option Nat :=
  match hexVal h1, hexVal h2, hexVal h3, hexVal h4 with
  | some a, some b, some c, some d => some (((a * 16 + b) * 16 + c) * 16 + d)
  | _, _, _, _ => none

/-- Decode a `\uXXXX` escape: the input starts right after the `\u`.
Answers the decoded character and the rest of the input.  A high
surrogate must be followed by a `\u`-escaped low surrogate; a lone
surrogate answers `none` (Python would build a string outside the
unicode-scalar domain modelled here — the printer below never emits
one). -/
def parseUEsc (r : List Char) : Option (Char × List Char) :=
  match r with
  | h1 :: h2 :: h3 :: h4 :: r1 =>
    match hexQuad h1 h2 h3 h4 with
    | some v =>
      if 0xD800 ≤ v && v ≤ 0xDBFF then
        match r1 with
        | e1 :: e2 :: g1 :: g2 :: g3 :: g4 :: r2 =>
          if e1 = '\\' && e2 = 'u' then
            match hexQuad g1 g2 g3 g4 with
            | some w =>
              if 0xDC00 ≤ w && w ≤ 0xDFFF then
                some (Char.ofNat (0x10000 + (v - 0xD800) * 1024 + (w - 0xDC00)), r2)
              else none
            | none => none
          else none
        | _ => none
      else if 0xDC00 ≤ v && v ≤ 0xDFFF then none
      else some (Char.ofNat v, r1)
    | none => none
  | _ => none

/-- Body of a JSON string literal, after the opening quote: characters up
to the closing quote, with escapes.  Raw control characters are rejected,
as `json.loads` rejects them.  `fuel` strictly decreases on every
recursive call and every call consumes at least one input character
first, so `input length + 1` fuel always suffices (what the call sites
pass). -/
def parseStrChars : Nat → List Char → Option (List Char × List Char)
  | 0, _ => none
  | _, [] => none
  | fuel+1, c :: rest =>
    if c = '"' then some ([], rest)
    else if c = '\\' then
      match rest with
      | [] => none
      | e :: r =>
        if e = '"' then (parseStrChars fuel r).map (fun p => ('"' :: p.1, p.2))
        else if e = '\\' then (parseStrChars fuel r).map (fun p => ('\\' :: p.1, p.2))
        else if e = '/' then (parseStrChars fuel r).map (fun p => ('/' :: p.1, p.2))
        else if e = 'n' then (parseStrChars fuel r).map (fun p => ('\n' :: p.1, p.2))
        else if e = 't' then (parseStrChars fuel r).map (fun p => ('\t' :: p.1, p.2))
        else if e = 'r' then (parseStrChars fuel r).map (fun p => ('\r' :: p.1, p.2))
        else if e = 'b' then (parseStrChars fuel r).map (fun p => ('\x08' :: p.1, p.2))
        else if e = 'f' then (parseStrChars fuel r).map (fun p => ('\x0c' :: p.1, p.2))
        else if e = 'u' then
          match parseUEsc r with
          | some (ch, r2) => (parseStrChars fuel r2).map (fun p => (ch :: p.1, p.2))
          | none => none
        else none
    else if c.toNat < 0x20 then none
    else (parseStrChars fuel rest).map (fun p => (c :: p.1, p.2))

/-- Decimal value of a digit run. -/
def digitsToNat (ds : List Char) : Nat :=
  ds.foldl (fun acc c => acc * 10 + (c.toNat - 48)) 0

/-- Unsigned JSON number: a digit run without a leading zero, not followed
by a fraction or exponent (non-integer numbers are outside the modelled
fragment and answer `none` rather than mis-parse). -/
def parseNumTail (l : List Char) : Option (Nat × List Char) :=
  let ds := l.takeWhile Char.isDigit
  let rest := l.dropWhile Char.isDigit
  match ds with
  | [] => none
  | ['0'] =>
    match rest with
    | '.' :: _ => none
    | 'e' :: _ => none
    | 'E' :: _ => none
    | _ => some (0, rest)
  | '0' :: _ :: _ => none
  | _ =>
    match rest with
    | '.' :: _ => none
    | 'e' :: _ => none
    | 'E' :: _ => none
    | _ => some (digitsToNat ds, rest)

/-- A JSON number with optional minus sign. -/
def parseNumber (l : List Char) : Option (Int × List Char) :=
  match l with
  | '-' :: r => (parseNumTail r).map (fun p => (-(Int.ofNat p.1), p.2))
  | _ => (parseNumTail l).map (fun p => (Int.ofNat p.1, p.2))

/-- Parser modes: a value, the inside of an array (just after `[` or after
an element, with the elements collected so far), and likewise for
objects. -/
inductive ParseMode where
  | val
  | elems
  | elemsRest (acc : List Json)
  | fields
  | fieldsRest (acc : List (String × Json))

/-- Recursive-descent JSON parser.  `fuel` strictly decreases on every
recursive call and every call consumes at least one input character
first, so `input length + 1` fuel always suffices (what `parseJson`
passes). -/
def parseGo : Nat → ParseMode → List Char → Option (Json × List Char)
  | 0, _, _ => none
  | fuel+1, .val, input =>
    match skipWs input with
    | '"' :: rest =>
      (parseStrChars (rest.length + 1) rest).map (fun p => (.str (String.mk p.1), p.2))
    | 't' :: 'r' :: 'u' :: 'e' :: rest => some (.bool true, rest)
    | 'f' :: 'a' :: 'l' :: 's' :: 'e' :: rest => some (.bool false, rest)
    | 'n' :: 'u' :: 'l' :: 'l' :: rest => some (.null, rest)
    | '[' :: rest => parseGo fuel .elems rest
    | '{' :: rest => parseGo fuel .fields rest
    | l => (parseNumber l).map (fun p => (.num p.1, p.2))
  | fuel+1, .elems, input =>
    match skipWs input with
    | ']' :: rest => some (.arr [], rest)
    | _ =>
      match parseGo fuel .val input with
      | some (v, r) => parseGo fuel (.elemsRest [v]) r
      | none => none
  | fuel+1, .elemsRest acc, input =>
    match skipWs input with
    | ',' :: rest =>
      match parseGo fuel .val rest with
      | some (v, r) => parseGo fuel (.elemsRest (acc ++ [v])) r
      | none => none
    | ']' :: rest => some (.arr acc, rest)
    | _ => none
  | fuel+1, .fields, input =>
    match skipWs input with
    | '}' :: rest => some (.obj [], rest)
    | '"' :: rest =>
      match parseStrChars (rest.length + 1) rest with
      | some (k, r1) =>
        match skipWs r1 with
        | ':' :: r2 =>
          match parseGo fuel .val r2 with
          | some (v, r3) => parseGo fuel (.fieldsRest [(String.mk k, v)]) r3
          | none => none
        | _ => none
      | none => none
    | _ => none
  | fuel+1, .fieldsRest acc, input =>
    match skipWs input with
    | '}' :: rest => some (.obj acc, rest)
    | ',' :: rest =>
      match skipWs rest with
      | '"' :: r0 =>
        match parseStrChars (r0.length + 1) r0 with
        | some (k, r1) =>
          match skipWs r1 with
          | ':' :: r2 =>
            match parseGo fuel .val r2 with
            | some (v, r3) => parseGo fuel (.fieldsRest (acc ++ [(String.mk k, v)])) r3
            | none => none
          | _ => none
        | none => none
      | _ => none
    | _ => none

/-- Python `json.loads` on the modelled fragment: a single value with
optional surrounding whitespace, nothing after it. -/
def parseJson (s : String) : Option Json :=
  match parseGo (s.data.length + 1) .val s.data with
  | some (v, rest) => if skipWs rest = [] then some v else none
  | none => none

/-! ### Printer: `json.dump(value, f, indent=2, ensure_ascii=False)` -/

/-- An opening brace character. -/
def lbrace : Char := Char.ofNat 123

/-- A closing brace character. -/
def rbrace : Char := Char.ofNat 125

/-- Escape one character the way `json.dumps(..., ensure_ascii=False)`
does: `"` and `\` get a backslash, the five named control characters use
their short escapes, other control characters use `\u00XX`, everything
else (including non-ASCII) passes through. -/
def escapeChar (c : Char) : List Char :=
  if c = '"' then ['\\', '"']
  else if c = '\\' then ['\\', '\\']
  else if c = '\n' then ['\\', 'n']
  else if c = '\t' then ['\\', 't']
  else if c = '\r' then ['\\', 'r']
  else if c = '\x08' then ['\\', 'b']
  else if c = '\x0c' then ['\\', 'f']
  else if c.toNat < 0x20 then ['\\', 'u', '0', '0', hexDigitChar (c.toNat / 16), hexDigitChar (c.toNat % 16)]
  else [c]

/-- The escaped body of a JSON string literal. -/
def escapeString (s : String) : List Char := (s.data.map escapeChar).flatten

/-- A printed JSON string literal. -/
def printStrLit (s : String) : List Char := '"' :: escapeString s ++ ['"']

/-- `n` spaces of indentation. -/
def indChars (n : Nat) : List Char := List.replicate n ' '

mutual

/-- `json.dump(..., indent=2)` layout of one value at nesting level
`lvl`: the body of a non-empty container opens with a newline, items sit
on their own indented lines separated by `",\n"`, keys are followed by
`": "`, and the closing bracket returns to the enclosing indentation. -/
def printJ (lvl : Nat) : Json → List Char
  | .null => ("null").data
  | .bool true => ("true").data
  | .bool false => ("false").data
  | .num n => (toString n).data
  | .str s => printStrLit s
  | .arr [] => ['[', ']']
  | .obj [] => [lbrace, rbrace]
  | .arr (x :: xs) =>
    '[' :: '\n' :: (indChars (2 * (lvl + 1)) ++ printJ (lvl + 1) x) ++
      printArrTail (lvl + 1) xs ++ '\n' :: indChars (2 * lvl) ++ [']']
  | .obj (kv :: kvs) =>
    lbrace :: '\n' ::
      (indChars (2 * (lvl + 1)) ++ printStrLit kv.1 ++ ':' :: ' ' :: printJ (lvl + 1) kv.2) ++
      printObjTail (lvl + 1) kvs ++ '\n' :: indChars (2 * lvl) ++ [rbrace]

/-- Second and later array items, each on its own indented line. -/
def printArrTail (lvl : Nat) : List Json → List Char
  | [] => []
  | v :: vs => ',' :: '\n' :: (indChars (2 * lvl) ++ printJ lvl v) ++ printArrTail lvl vs

/-- Second and later object fields, each on its own indented line. -/
def printObjTail (lvl : Nat) : List (String × Json) → List Char
  | [] => []
  | kv :: kvs =>
    ',' :: '\n' :: (indChars (2 * lvl) ++ printStrLit kv.1 ++ ':' :: ' ' :: printJ lvl kv.2) ++
      printObjTail lvl kvs

end

/-- `json.dump(j, f, indent=2, ensure_ascii=False)`: the exact file text. -/
def pyJsonDumpIndent2 (j : Json) : String :=
  String.mk (printJ 0 j)

/-- `v` printed at any level parses back as a value, leaving the rest of
the input, whenever the parser is given at least `need` fuel. -/
def RoundTrips (need : Nat) (v : Json) : Prop :=
  ∀ lvl f rest, need ≤ f → parseGo f .val (printJ lvl v ++ rest) = some (v, rest)

/-! ## Data models (`src/models.py`)

pydantic `BaseModel`s.  Validation follows pydantic's defaults: required
fields must be present, unknown fields are ignored (`extra='ignore'` is
the default model config), a `str` field accepts exactly a JSON string
(no numeric coercion), a `List[str]` field a JSON array of strings, and
an `Optional[List[str]] = []` field defaults to `[]` when absent and
accepts `null`.  `TranscriptUtterance.start_time` / `end_time`
(`Optional[float] = None`) are omitted from the Lean structure: the
webhook path never sets them, so they are always `None`; `model_dump`
emits them as `null`, which the dump functions below reproduce. -/

/-- `models.TranscriptUtterance` (webhook-path fields). -/
structure TranscriptUtterance where
  speaker : String
  text : String
deriving DecidableEq, Repr

/-- `models.SessionTranscript`. -/
structure SessionTranscript where
  session_id : String
  raw_text : String
  transcript : List TranscriptUtterance
deriving DecidableEq, Repr

/-- `models.Domain`. -/
structure Domain where
  baseline : String
  smart_goals : List String
  tracking_kpis : List String
  evidence_quotes : Option (List String)
deriving DecidableEq, Repr

/-- `models.LifestylePlan`: exactly the six domains, in declaration
order. -/
structure LifestylePlan where
  healthy_eating : Domain
  physical_activity : Domain
  substances : Domain
  stress_management : Domain
  sleep : Domain
  social_connections : Domain
deriving DecidableEq, Repr

/-- `model_dump()` of an utterance (field order as declared; the unset
`start_time` / `end_time` dump as `null`). -/
def dumpUtterance (u : TranscriptUtterance) : Json :=
  .obj [("speaker", .str u.speaker), ("start_time", .null), ("end_time", .null),
        ("text", .str u.text)]

/-- `model_dump()` of a transcript. -/
def dumpTranscript (t : SessionTranscript) : Json :=
  .obj [("session_id", .str t.session_id), ("raw_text", .str t.raw_text),
        ("transcript", .arr (t.transcript.map dumpUtterance))]

/-- `model_dump()` of a domain. -/
def dumpDomain (d : Domain) : Json :=
  .obj [("baseline", .str d.baseline),
        ("smart_goals", .arr (d.smart_goals.map .str)),
        ("tracking_kpis", .arr (d.tracking_kpis.map .str)),
        ("evidence_quotes",
          match d.evidence_quotes with
          | none => .null
          | some l => .arr (l.map .str))]

/-- `model_dump()` of a plan. -/
def dumpPlan (p : LifestylePlan) : Json :=
  .obj [("healthy_eating", dumpDomain p.healthy_eating),
        ("physical_activity", dumpDomain p.physical_activity),
        ("substances", dumpDomain p.substances),
        ("stress_management", dumpDomain p.stress_management),
        ("sleep", dumpDomain p.sleep),
        ("social_connections", dumpDomain p.social_connections)]

/-- Parser fuel that suffices for one dumped domain. -/
def domNeed (d : Domain) : Nat :=
  2 * d.smart_goals.length + 2 * d.tracking_kpis.length +
    2 * (match d.evidence_quotes with | none => 0 | some l => l.length) + 2

/-- Parser fuel that suffices for a dumped plan. -/
def planNeed (p : LifestylePlan) : Nat :=
  domNeed p.healthy_eating + domNeed p.physical_activity + domNeed p.substances +
    domNeed p.stress_management + domNeed p.sleep + domNeed p.social_connections + 6

/-- Sequencing of embedded Python steps that can raise. -/
def exBind (x : Except PyErr α) (f : α → Except PyErr β) : Except PyErr β :=
  match x with
  | .ok a => f a
  | .error e => .error e

/-- pydantic validation of a `str` field (strict: a JSON string only). -/
def validateStrField : Json → Except PyErr String
  | .str s => .ok s
  | _ => .error .validationError

/-- pydantic validation of each element of a `List[str]` field. -/
def validateStrListAux : List Json → Except PyErr (List String)
  | [] => .ok []
  | j :: rest =>
    match validateStrField j with
    | .ok s =>
      match validateStrListAux rest with
      | .ok l => .ok (s :: l)
      | .error e => .error e
    | .error e => .error e

/-- pydantic validation of a `List[str]` field. -/
def validateStrList : Json → Except PyErr (List String)
  | .arr xs => validateStrListAux xs
  | _ => .error .validationError

/-- pydantic validation of an `Optional[List[str]]` field (`null` is
`None`). -/
def validateOptStrList : Json → Except PyErr (Option (List String))
  | .null => .ok none
  | j =>
    match validateStrList j with
    | .ok l => .ok (some l)
    | .error e => .error e

/-- A required pydantic field: absent means a `ValidationError`. -/
def requiredField (fs : List (String × Json)) (k : String)
    (vf : Json → Except PyErr α) : Except PyErr α :=
  match dictGet fs k with
  | none => .error .validationError
  | some v => vf v

/-- pydantic validation of `Domain(**·)`: the three required fields plus
the defaulted `evidence_quotes`; unknown keys are ignored
(`extra='ignore'`), a non-object is rejected. -/
def validateDomain : Json → Except PyErr Domain
  | .obj fs =>
    exBind (requiredField fs ("baseline") validateStrField) fun baseline =>
    exBind (requiredField fs ("smart_goals") validateStrList) fun smart_goals =>
    exBind (requiredField fs ("tracking_kpis") validateStrList) fun tracking_kpis =>
    exBind (match dictGet fs ("evidence_quotes") with
            | none => .ok (some [])
            | some v => validateOptStrList v) fun evidence_quotes =>
    .ok ⟨baseline, smart_goals, tracking_kpis, evidence_quotes⟩
  | _ => .error .validationError

/-- pydantic validation of `LifestylePlan(**·)`: the six required domain
fields, unknown keys ignored; a non-object is rejected (in the source a
non-dict reaches `LifestylePlan(**data)` as a `TypeError`, which the
same `except Exception` turns into the schema-kind failure). -/
def validateLifestylePlan : Json → Except PyErr LifestylePlan
  | .obj fs =>
    exBind (requiredField fs ("healthy_eating") validateDomain) fun healthy_eating =>
    exBind (requiredField fs ("physical_activity") validateDomain) fun physical_activity =>
    exBind (requiredField fs ("substances") validateDomain) fun substances =>
    exBind (requiredField fs ("stress_management") validateDomain) fun stress_management =>
    exBind (requiredField fs ("sleep") validateDomain) fun sleep =>
    exBind (requiredField fs ("social_connections") validateDomain) fun social_connections =>
    .ok ⟨healthy_eating, physical_activity, substances, stress_management, sleep, social_connections⟩
  | _ => .error .validationError

/-! ## Plan extraction (`src/llm/plan_generator.py`) -/

/-- `PlanGenerationError(message, raw_response)`; `str(exc)` is
`message`. -/
structure PlanGenerationError where
  message : String
  raw_response : Option String
deriving DecidableEq, Repr

/-- The deterministic tail of `generate_lifestyle_plan` (lines 108–121),
from the model's raw response text onward: `json.loads`, then
`LifestylePlan(**data)`.  A decode failure raises
`PlanGenerationError("Failed to parse LLM response", raw)`; a schema
failure raises `PlanGenerationError("LLM response did not match schema",
raw)`; success returns the plan together with the unchanged raw text.
The upstream API call that produced the raw text is an external
collaborator and is passed in as `raw_json`. -/
def generate_lifestyle_plan (raw_json : String) :
    Except PlanGenerationError (LifestylePlan × String) :=
  match parseJson raw_json with
  | none => .error ⟨"Failed to parse LLM response", some raw_json⟩
  | some data =>
    match validateLifestylePlan data with
    | .error _ => .error ⟨"LLM response did not match schema", some raw_json⟩
    | .ok plan => .ok (plan, raw_json)

/-! ## Artifact writing (`src/utils/io_utils.py`)

The filesystem is modelled by value: each writer returns the session
directory path together with the `(file name, file content)` pairs it
writes into that directory. -/

/-- Python `str.title()` on the ASCII fragment: uppercase a letter that
follows a non-letter, lowercase the rest. -/
def pyTitleChars : Bool → List Char → List Char
  | _, [] => []
  | prevAlpha, c :: rest =>
    if c.isAlpha then (if prevAlpha then c.toLower else c.toUpper) :: pyTitleChars true rest
    else c :: pyTitleChars false rest

/-- `domain_name.replace("_", " ").title()`. -/
def domainTitle (s : String) : String :=
  String.mk (pyTitleChars false (s.data.map (fun c => if c = '_' then ' ' else c)))

/-- One `"- item"` bullet line per element. -/
def bulletLines (xs : List String) : String :=
  String.join (xs.map (fun x => "- " ++ x ++ "\n"))

/-- The markdown section `save_session_outputs` writes for one domain. -/
def mdDomainSection (name : String) (d : Domain) : String :=
  "## " ++ domainTitle name ++ "\n\n" ++
  "**Baseline**\n\n" ++ d.baseline ++ "\n\n" ++
  "**SMART Goals**\n\n" ++ bulletLines d.smart_goals ++
  "\n**Tracking KPIs**\n\n" ++ bulletLines d.tracking_kpis ++ "\n\n"

/-- The plan's `model_dump()` items in iteration (declaration) order. -/
def planDomainsList (p : LifestylePlan) : List (String × Domain) :=
  [("healthy_eating", p.healthy_eating), ("physical_activity", p.physical_activity),
   ("substances", p.substances), ("stress_management", p.stress_management),
   ("sleep", p.sleep), ("social_connections", p.social_connections)]

/-- The full `session_plan.md` text. -/
def renderPlanMd (session_id : String) (p : LifestylePlan) : String :=
  "# Lifestyle Plan for session " ++ session_id ++ "\n\n" ++
  String.join ((planDomainsList p).map (fun kv => mdDomainSection kv.1 kv.2))

/-- `save_session_outputs` (lines 14–43): the session directory
`output_dir/session_id` and the three files written into it. -/
def save_session_outputs (output_dir session_id : String)
    (transcript : SessionTranscript) (plan : LifestylePlan) :
    String × List (String × String) :=
  (output_dir ++ "/" ++ session_id,
   [("session_transcript.json", pyJsonDumpIndent2 (dumpTranscript transcript)),
    ("session_plan.json", pyJsonDumpIndent2 (dumpPlan plan)),
    ("session_plan.md", renderPlanMd session_id plan)])

/-- The text `save_failure_outputs` writes into `plan_failure.txt`: the
error message, then — only when the raw LLM response is truthy — the raw
response itself. -/
def failureNoteText (raw_response : Option String) (error_message : String) : String :=
  "Plan generation failed: " ++ error_message ++ "\n\n" ++
  (match raw_response with
   | some r => if r = "" then "" else "Raw LLM response:\n" ++ r
   | none => "")

/-- `save_failure_outputs` (lines 46–66): the session directory and the
two files written into it. -/
def save_failure_outputs (output_dir session_id : String)
    (transcript : SessionTranscript) (raw_response : Option String)
    (error_message : String) : String × List (String × String) :=
  (output_dir ++ "/" ++ session_id,
   [("session_transcript.json", pyJsonDumpIndent2 (dumpTranscript transcript)),
    ("plan_failure.txt", failureNoteText raw_response error_message)])

/-! ## The webhook handler (`src/server_stub/elevenlabs_webhook.py`,
lines 72–122) and its transcript-normalization block (lines 93–106). -/

/-- Python `obj.get(k)`: `dict` lookup, `AttributeError` on anything that
is not a dict (ints, strings, lists, `None`, booleans have no `.get`). -/
def pyGet (j : Json) (k : String) : Except PyErr (Option Json) :=
  match j with
  | .obj fs => .ok (dictGet fs k)
  | _ => .error .attributeError

/-- Python `x or dflt` for an optional lookup result: the value if truthy,
else the default (also used for `payload.get("data") or {}` and
`data.get("transcript") or []`). -/
def truthyOrElse (v : Option Json) (dflt : Json) : Json :=
  match v with
  | some j => if jTruthy j then j else dflt
  | none => dflt

/-- `data.get("id") or "unknown"` — the tail of the session-id fallback
chain. -/
def resolveIdFallback (data : Json) : Except PyErr Json :=
  exBind (pyGet data ("id")) fun c2 =>
    .ok (truthyOrElse c2 (.str "unknown"))

/-- `data.get("conversation_id") or data.get("id") or "unknown"`:
truthiness-based fallback (a present-but-falsy `conversation_id` falls
through). -/
def resolveConvoId (data : Json) : Except PyErr Json :=
  exBind (pyGet data ("conversation_id")) fun c1 =>
    match c1 with
    | some v => if jTruthy v then .ok v else resolveIdFallback data
    | none => resolveIdFallback data

/-- `item.get("text") or ""` — the tail of the message fallback chain. -/
def resolveTextDefault (item : Json) : Except PyErr Json :=
  exBind (pyGet item ("text")) fun t =>
    .ok (truthyOrElse t (.str ""))

/-- `item.get("message") or item.get("text") or ""`. -/
def resolveMsg (item : Json) : Except PyErr Json :=
  exBind (pyGet item ("message")) fun m =>
    match m with
    | some v => if jTruthy v then .ok v else resolveTextDefault item
    | none => resolveTextDefault item

/-- `item.get("speaker") or "unknown"` — the tail of the speaker fallback
chain. -/
def resolveSpeakerDefault (item : Json) : Except PyErr Json :=
  exBind (pyGet item ("speaker")) fun s =>
    .ok (truthyOrElse s (.str "unknown"))

/-- `item.get("role") or item.get("speaker") or "unknown"`. -/
def resolveSpeaker (item : Json) : Except PyErr Json :=
  exBind (pyGet item ("role")) fun r =>
    match r with
    | some v => if jTruthy v then .ok v else resolveSpeakerDefault item
    | none => resolveSpeakerDefault item

/-- Python `for item in transcript_items` over a truthy value (falsy ones
were already replaced by `[]`): a list iterates its items; iterating a
non-empty string or dict yields strings, whose `.get` then raises
`AttributeError`; anything else is not iterable (`TypeError`). -/
def iterItems : Json → Except PyErr (List Json)
  | .arr xs => .ok xs
  | .str _ => .error .attributeError
  | .obj _ => .error .attributeError
  | _ => .error .typeError

/-- The per-item loop of the normalization block: resolve the message,
drop the item if it is falsy, otherwise resolve the speaker and construct
`TranscriptUtterance(speaker=..., text=...)` (pydantic validates the
`speaker` field first, then `text`). -/
def buildUtterances : List Json → Except PyErr (List TranscriptUtterance)
  | [] => .ok []
  | item :: rest =>
    exBind (resolveMsg item) fun msgJ =>
      if jTruthy msgJ = false then buildUtterances rest
      else
        exBind (resolveSpeaker item) fun spJ =>
          exBind (validateStrField spJ) fun speaker =>
            exBind (validateStrField msgJ) fun text =>
              exBind (buildUtterances rest) fun rest' =>
                .ok (⟨speaker, text⟩ :: rest')

/-- The normalization block of the handler (lines 94–106), once
`data = payload.get("data") or {}` is in hand: resolve the conversation
id and the transcript items, build the utterances, join their texts with
newlines, and construct `SessionTranscript` (whose `session_id` field
validation requires a string). -/
def normalizeWithData (data : Json) : Except PyErr SessionTranscript :=
  exBind (resolveConvoId data) fun convoJ =>
    exBind (exBind (pyGet data ("transcript")) fun t => .ok (truthyOrElse t (.arr []))) fun itemsJ =>
      exBind (iterItems itemsJ) fun items =>
        exBind (buildUtterances items) fun utts =>
          exBind (validateStrField convoJ) fun session_id =>
            .ok ⟨session_id, String.intercalate ("\n") (utts.map TranscriptUtterance.text), utts⟩

/-- The normalization block of the handler (lines 93–106):
`data = payload.get("data") or {}`, then `normalizeWithData`. -/
def normalizePayload (payload : Json) : Except PyErr SessionTranscript :=
  exBind (pyGet payload ("data")) fun dataOpt =>
    normalizeWithData (truthyOrElse dataOpt (.obj []))

/-- What the handler hands back to FastAPI: a raised `HTTPException`
(`httpError`) or a returned dict (HTTP 200) together with the session
directory and the files written while producing it. -/
inductive WebhookOutcome where
  | httpError (status : Nat) (detail : String)
  | response (body : Json) (session_dir : String) (files : List (String × String))

/-- The `elevenlabs_webhook` handler.  `secret` is the module-level
`WEBHOOK_SECRET`, `now` the current unix time, `output_dir` the settings
output root, `raw_body` the request bytes, `signature_header` the
signature header value (the four case-variant header names collapse to
one optional value), and `llm_raw` the upstream model's raw response
text (the external call's result).  Uncaught Python exceptions surface
as `.error`. -/
def elevenlabs_webhook (secret : Option String) (now : Int) (output_dir : String)
    (raw_body : List Nat) (signature_header : Option String) (llm_raw : String) :
    Except PyErr WebhookOutcome :=
  exBind (verify_signature secret now raw_body signature_header) fun okSig =>
    if okSig = false then .ok (.httpError 401 ("Invalid signature"))
    else
      match utf8Decode raw_body with
      | none => .error .unicodeDecodeError
      | some text =>
        match parseJson text with
        | none => .ok (.httpError 400 ("Invalid JSON payload"))
        | some payload =>
          exBind (normalizePayload payload) fun st =>
            match generate_lifestyle_plan llm_raw with
            | .error e =>
              let out := save_failure_outputs output_dir st.session_id st e.raw_response e.message
              .ok (.response
                (.obj [("status", .str "plan_failed"),
                       ("conversation_id", .str st.session_id),
                       ("session_dir", .str out.1),
                       ("error", .str e.message)])
                out.1 out.2)
            | .ok (plan, _) =>
              let out := save_session_outputs output_dir st.session_id st plan
              .ok (.response
                (.obj [("status", .str "ok"),
                       ("conversation_id", .str st.session_id),
                       ("session_dir", .str out.1)])
                out.1 out.2)

/-! ## Concrete payloads and shape predicates used by the theorems
below -/

/-- The six mandatory domain keys of a Lifestyle Plan, in declaration
order. -/
def requiredDomainKeys : List String :=
  ["healthy_eating", "physical_activity", "substances", "stress_management",
   "sleep", "social_connections"]

/-- A minimal valid domain extract. -/
def c2GoodDomain : Domain := ⟨"b", [], [], some []⟩

/-- A domain object carrying an extra sub-field beyond
baseline/smart_goals/tracking_kpis/evidence_quotes. -/
def c2DomainWithExtra : Json :=
  .obj [("baseline", .str "b"), ("smart_goals", .arr []), ("tracking_kpis", .arr []),
        ("evidence_quotes", .arr []), ("extra_sub", .num 1)]

/-- The six domain fields of a well-formed plan object. -/
def c2SixFields : List (String × Json) :=
  [("healthy_eating", dumpDomain c2GoodDomain),
   ("physical_activity", dumpDomain c2GoodDomain),
   ("substances", dumpDomain c2GoodDomain),
   ("stress_management", dumpDomain c2GoodDomain),
   ("sleep", dumpDomain c2GoodDomain),
   ("social_connections", c2DomainWithExtra)]

/-- A parsed JSON object with all six domains plus an extra top-level
domain key, one domain also carrying an extra sub-field. -/
def c2Json : Json := .obj (c2SixFields ++ [("extra_domain", .obj [])])

/-- The same object as raw model-response text. -/
def c2Raw : String := pyJsonDumpIndent2 c2Json

/-- The plan the code actually builds from `c2Raw`. -/
def c2Plan : LifestylePlan :=
  ⟨c2GoodDomain, c2GoodDomain, c2GoodDomain, c2GoodDomain, c2GoodDomain, c2GoodDomain⟩

/-- The four domain sub-field keys. -/
def domainFieldKeys : List String :=
  ["baseline", "smart_goals", "tracking_kpis", "evidence_quotes"]

/-- Is this a JSON string? -/
def isStrJ : Json → Bool
  | .str _ => true
  | _ => false

/-- Does the item's speaker chain resolve to a string? -/
def speakerIsStr (item : Json) : Bool :=
  match resolveSpeaker item with
  | .ok (.str _) => true
  | _ => false

/-- A transcript item the normalization loop cannot raise on: an object
whose resolved message, when truthy, is a string with a string speaker. -/
def wellShapedItem (item : Json) : Bool :=
  match item with
  | .obj _ =>
    match resolveMsg item with
    | .ok m => !jTruthy m || (isStrJ m && speakerIsStr item)
    | .error _ => false
  | _ => false

/-- A provider payload the normalization block cannot raise on: a JSON
object whose resolved `data` is an object, whose resolved conversation
id is a string, and whose resolved transcript value is an array of
well-shaped items. -/
def wellShapedPayload (payload : Json) : Bool :=
  match payload with
  | .obj fs =>
    match truthyOrElse (dictGet fs ("data")) (.obj []) with
    | .obj dfs =>
      (match resolveConvoId (.obj dfs) with
       | .ok c => isStrJ c
       | .error _ => false) &&
      (match truthyOrElse (dictGet dfs ("transcript")) (.arr []) with
       | .arr items => items.all wellShapedItem
       | _ => false)
    | _ => false
  | _ => false

/-- The texts the spec says survive normalization: for each item, the
resolved message when it is a non-empty string, in original order. -/
def keptTexts (items : List Json) : List String :=
  items.filterMap fun item =>
    match resolveMsg item with
    | .ok (.str s) => if s = "" then none else some s
    | _ => none

/-- Scenario A's webhook payload, parsed. -/
def scenarioAJson : Json :=
  .obj [("data", .obj [("conversation_id", .str "c1"),
    ("transcript", .arr [
      .obj [("role", .str "coach"), ("message", .str "Hi")],
      .obj [("role", .str "client"), ("text", .str "Hello")]])])]

/-- `needle` occurs verbatim inside `hay`. -/
def SubstrOf (needle hay : String) : Prop :=
  ∃ pre post, hay = pre ++ needle ++ post

/-! ## Shared lemmas -/

theorem exBind_ok_iff {α β : Type} {x : Except PyErr α} {f : α → Except PyErr β} {b : β} :
    exBind x f = .ok b ↔ ∃ a, x = .ok a ∧ f a = .ok b := by
  cases x <;> simp [exBind]

theorem parse_signature_header_empty : parse_signature_header "" = none := rfl

theorem pyTruthy_some_of_ne {s : String} (hs : s ≠ "") : pyTruthyOptStr (some s) = true := by
  simp [pyTruthyOptStr, hs]

/-- With a configured secret and a non-empty header, `verify_signature`
is the header-verification stage. -/
theorem verify_signature_some {s : String} (hs : s ≠ "") (now : Int) (payload : List Nat)
    {h : String} (hne : h ≠ "") :
    verify_signature (some s) now payload (some h) = verify_with_header s now payload h := by
  unfold verify_signature
  rw [pyTruthy_some_of_ne hs]
  simp [hne]

/-- A header that fails to parse is rejected. -/
theorem verify_with_header_of_parse_none {h : String}
    (hparse : parse_signature_header h = none) (s : String) (now : Int) (payload : List Nat) :
    verify_with_header s now payload h = .ok false := by
  unfold verify_with_header
  rw [hparse]

/-- A header that parses hands its timestamp and signature value to the
freshness/digest stage. -/
theorem verify_with_header_of_parse_some {h : String} {t : Int} {sig : String}
    (hparse : parse_signature_header h = some (t, sig)) (s : String) (now : Int)
    (payload : List Nat) :
    verify_with_header s now payload h = verify_parsed s now payload t sig := by
  unfold verify_with_header
  rw [hparse]

/-- A parsed header is never the empty string. -/
theorem ne_empty_of_parse_some {h : String} {r : Int × String}
    (hparse : parse_signature_header h = some r) : h ≠ "" := by
  intro he
  subst he
  rw [parse_signature_header_empty] at hparse
  exact Option.noConfusion hparse

/-! ## Claim C5 -/

/-- Claim C5: when no webhook secret is configured (the settings value is
`None` or the empty string), `verify_signature` returns true for every
payload and every signature header value, including a missing or empty
header. -/
theorem C5_no_secret_disables_verification (now : Int) (payload : List Nat)
    (hdr : Option String) :
    verify_signature none now payload hdr = .ok true ∧
    verify_signature (some "") now payload hdr = .ok true := by
  exact ⟨rfl, rfl⟩

/-! ## Claim C1 -/

set_option maxRecDepth 200000 in
/-- Claim C1 (code bug): a webhook request whose signature header carries a
fresh timestamp and a `v1=` value equal to the plain hex
HMAC-SHA-256 of `"{t}.{payload}"` — the format the claim, the spec and
the function's own docstring describe — is REJECTED by
`verify_signature`, because the code compares `"v0=" + hexdigest`
against the substring after the first `"="` of the `v`-part.  The same
request is accepted only when the header value carries a doubled prefix
(`v1=v0=<hex>`), which shows the MAC core itself matches and the plain
hex header's rejection is exactly the prefix slip. -/
theorem C1_documented_header_rejected :
    verify_signature (some "whsec") 1739537300 (utf8Encode "hello")
      (some ("t=1739537297,v1=" ++
        hmacSha256Hex (utf8Encode "whsec") (utf8Encode "1739537297.hello"))) = .ok false ∧
    verify_signature (some "whsec") 1739537300 (utf8Encode "hello")
      (some ("t=1739537297,v1=v0=" ++
        hmacSha256Hex (utf8Encode "whsec") (utf8Encode "1739537297.hello"))) = .ok true := by
  exact ⟨rfl, rfl⟩

/-! ## Claim C4 -/

/-- Claim C4: with a configured secret, `verify_signature` rejects every
request whose parsed header timestamp is strictly older than
`now - 1800` seconds, whatever the signature value is; and no upper
bound is checked, so a future-dated timestamp passes the freshness test
and a request carrying the code's expected digest is accepted. -/
theorem C4_replay_window :
    (∀ (secret : Option String) (now : Int) (payload : List Nat) (h : String)
        (t : Int) (sig : String),
      pyTruthyOptStr secret = true →
      parse_signature_header h = some (t, sig) →
      t < now - 1800 →
      verify_signature secret now payload (some h) = .ok false) ∧
    (∀ (s : String) (now : Int) (payload : List Nat) (h : String) (t : Int) (text : String),
      s ≠ "" →
      parse_signature_header h =
        some (t, "v0=" ++ hmacSha256Hex (utf8Encode s) (utf8Encode (toString t ++ "." ++ text))) →
      now < t →
      utf8Decode payload = some text →
      verify_signature (some s) now payload (some h) = .ok true) := by
  constructor
  · intro secret now payload h t sig hsec hparse hstale
    obtain ⟨s, rfl⟩ : ∃ s, secret = some s := by
      cases secret with
      | none => exact absurd hsec (by simp [pyTruthyOptStr])
      | some s => exact ⟨s, rfl⟩
    have hs : s ≠ "" := by
      intro he
      subst he
      simp [pyTruthyOptStr] at hsec
    rw [verify_signature_some hs now payload (ne_empty_of_parse_some hparse),
        verify_with_header_of_parse_some hparse]
    unfold verify_parsed
    rw [if_pos (show t < now - 30 * 60 by omega)]
  · intro s now payload h t text hs hparse hfut hdec
    rw [verify_signature_some hs now payload (ne_empty_of_parse_some hparse),
        verify_with_header_of_parse_some hparse]
    unfold verify_parsed
    rw [if_neg (show ¬ t < now - 30 * 60 by omega), hdec]
    simp

set_option maxRecDepth 200000 in
/-- Witness for C4: a concretely stale request is rejected whatever its
signature; a concretely future-dated request carrying the expected digest
is accepted. -/
theorem C4_replay_window_witness :
    verify_signature (some "sec") 2000000000 (utf8Encode "hello") (some "t=0,v1=x") = .ok false ∧
    verify_signature (some "sec") 1000000 (utf8Encode "hello")
      (some ("t=2000000100,v1=v0=" ++
        hmacSha256Hex (utf8Encode "sec") (utf8Encode "2000000100.hello"))) = .ok true := by
  constructor
  · exact C4_replay_window.1 (some "sec") 2000000000 (utf8Encode "hello") "t=0,v1=x" 0 "x"
      rfl rfl (by decide)
  · exact C4_replay_window.2 "sec" 1000000 (utf8Encode "hello")
      ("t=2000000100,v1=v0=" ++
        hmacSha256Hex (utf8Encode "sec") (utf8Encode "2000000100.hello"))
      2000000100 "hello" (by decide) rfl (by decide) rfl

/-! ## Claim C9 -/

/-- Claim C9: with a configured secret, a header whose comma-split,
stripped parts lack a `t=` field, or lack both a `v1=` and a `v0=`
field, or whose `t=` value is not an integer, makes `verify_signature`
return false (a rejection, not a crash); and when a `v1=` part is
present, its value is the one the parser hands to the comparison (search
order v1 before v0). -/
theorem C9_malformed_header_rejected :
    (∀ (secret : Option String) (now : Int) (payload : List Nat) (h : String),
      pyTruthyOptStr secret = true →
      (signatureParts h).find? (fun p => pyStartsWith p ("t=")) = none →
      verify_signature secret now payload (some h) = .ok false) ∧
    (∀ (secret : Option String) (now : Int) (payload : List Nat) (h : String),
      pyTruthyOptStr secret = true →
      (signatureParts h).find? (fun p => pyStartsWith p ("v1=")) = none →
      (signatureParts h).find? (fun p => pyStartsWith p ("v0=")) = none →
      verify_signature secret now payload (some h) = .ok false) ∧
    (∀ (secret : Option String) (now : Int) (payload : List Nat) (h : String) (tp : String),
      pyTruthyOptStr secret = true →
      (signatureParts h).find? (fun p => pyStartsWith p ("t=")) = some tp →
      pyInt (afterFirstEq tp) = none →
      verify_signature secret now payload (some h) = .ok false) ∧
    (∀ (h : String) (t : Int) (sig vp : String),
      (signatureParts h).find? (fun p => pyStartsWith p ("v1=")) = some vp →
      parse_signature_header h = some (t, sig) →
      sig = afterFirstEq vp) := by
  have hsecret : ∀ (secret : Option String), pyTruthyOptStr secret = true →
      ∃ s, secret = some s ∧ s ≠ "" := by
    intro secret hsec
    cases secret with
    | none => exact absurd hsec (by simp [pyTruthyOptStr])
    | some s =>
      refine ⟨s, rfl, ?_⟩
      intro he
      subst he
      simp [pyTruthyOptStr] at hsec
  have hreject : ∀ (secret : Option String) (now : Int) (payload : List Nat) (h : String),
      pyTruthyOptStr secret = true →
      parse_signature_header h = none →
      verify_signature secret now payload (some h) = .ok false := by
    intro secret now payload h hsec hparse
    obtain ⟨s, rfl, hs⟩ := hsecret secret hsec
    by_cases he : h = ""
    · subst he
      unfold verify_signature
      rw [pyTruthy_some_of_ne hs]
      simp
    · rw [verify_signature_some hs now payload he,
          verify_with_header_of_parse_none hparse]
  refine ⟨?_, ?_, ?_, ?_⟩
  · intro secret now payload h hsec hfind
    refine hreject secret now payload h hsec ?_
    unfold parse_signature_header
    rw [hfind]
  · intro secret now payload h hsec hv1 hv0
    refine hreject secret now payload h hsec ?_
    unfold parse_signature_header findVPart
    rw [hv1, hv0]
    cases (signatureParts h).find? (fun p => pyStartsWith p ("t=")) <;> rfl
  · intro secret now payload h tp hsec hfind hint
    refine hreject secret now payload h hsec ?_
    unfold parse_signature_header
    rw [hfind]
    cases findVPart (signatureParts h) with
    | none => rfl
    | some vp => simp [hint]
  · intro h t sig vp hv1 hparse
    have hv : findVPart (signatureParts h) = some vp := by
      simp [findVPart, hv1]
    cases htp : (signatureParts h).find? (fun p => pyStartsWith p ("t=")) with
    | none =>
      unfold parse_signature_header at hparse
      rw [htp] at hparse
      exact absurd hparse (by simp)
    | some tp =>
      have heq : parse_signature_header h =
          (pyInt (afterFirstEq tp)).map (fun ts => (ts, afterFirstEq vp)) := by
        unfold parse_signature_header
        rw [htp, hv]
        show (match pyInt (afterFirstEq tp) with
              | some ts => some (ts, afterFirstEq vp)
              | none => none) =
          (pyInt (afterFirstEq tp)).map (fun ts => (ts, afterFirstEq vp))
        cases pyInt (afterFirstEq tp) <;> rfl
      rw [heq] at hparse
      obtain ⟨ts, _, hpair⟩ := Option.map_eq_some'.mp hparse
      exact (congrArg Prod.snd hpair).symm

set_option maxRecDepth 100000 in
/-- Witness for C9: concrete malformed headers (no `t=`; neither `v1=`
nor `v0=`; a non-integer `t=` value) are rejected with a configured
secret, and with both `v1=` and `v0=` present the `v1=` value is the one
extracted. -/
theorem C9_malformed_header_rejected_witness :
    verify_signature (some "sec") 1000 [] (some "v1=abc") = .ok false ∧
    verify_signature (some "sec") 1000 [] (some "t=5") = .ok false ∧
    verify_signature (some "sec") 1000 [] (some "t=xx,v1=abc") = .ok false ∧
    ("yy" : String) = afterFirstEq "v1=yy" := by
  refine ⟨?_, ?_, ?_, ?_⟩
  · exact C9_malformed_header_rejected.1 (some "sec") 1000 [] "v1=abc" rfl rfl
  · exact C9_malformed_header_rejected.2.1 (some "sec") 1000 [] "t=5" rfl rfl rfl
  · exact C9_malformed_header_rejected.2.2.1 (some "sec") 1000 [] "t=xx,v1=abc" "t=xx"
      rfl rfl rfl
  · exact C9_malformed_header_rejected.2.2.2 " t=5 , v0=zz , v1=yy " 5 "yy" "v1=yy"
      rfl rfl

/-! ## Claim C3 -/

theorem requiredField_ok {α : Type} {fs : List (String × Json)} {k : String}
    {vf : Json → Except PyErr α} {a : α}
    (h : requiredField fs k vf = .ok a) : (dictGet fs k).isSome := by
  unfold requiredField at h
  cases hget : dictGet fs k with
  | none =>
    rw [hget] at h
    exact Except.noConfusion h
  | some v => rfl

/-- A successfully validated plan object has all six domain keys. -/
theorem validateLifestylePlan_ok_present {fs : List (String × Json)} {p : LifestylePlan}
    (hok : validateLifestylePlan (.obj fs) = .ok p) :
    ∀ k ∈ requiredDomainKeys, (dictGet fs k).isSome := by
  intro k hk
  unfold validateLifestylePlan at hok
  obtain ⟨d1, h1, hok⟩ := exBind_ok_iff.mp hok
  obtain ⟨d2, h2, hok⟩ := exBind_ok_iff.mp hok
  obtain ⟨d3, h3, hok⟩ := exBind_ok_iff.mp hok
  obtain ⟨d4, h4, hok⟩ := exBind_ok_iff.mp hok
  obtain ⟨d5, h5, hok⟩ := exBind_ok_iff.mp hok
  obtain ⟨d6, h6, hok⟩ := exBind_ok_iff.mp hok
  simp only [requiredDomainKeys, List.mem_cons, List.not_mem_nil, or_false] at hk
  rcases hk with rfl | rfl | rfl | rfl | rfl | rfl
  · exact requiredField_ok h1
  · exact requiredField_ok h2
  · exact requiredField_ok h3
  · exact requiredField_ok h4
  · exact requiredField_ok h5
  · exact requiredField_ok h6

/-- Claim C3: a model response that parses as a JSON object missing one of
the six required domains makes `generate_lifestyle_plan` fail with the
schema-kind `PlanGenerationError` (whose message differs from the
decode-kind one), carrying the raw response text unchanged, and no plan
is returned. -/
theorem C3_missing_domain_schema_error (raw : String) (fs : List (String × Json)) (k : String)
    (hparse : parseJson raw = some (.obj fs))
    (hk : k ∈ requiredDomainKeys)
    (hmiss : dictGet fs k = none) :
    generate_lifestyle_plan raw = .error ⟨"LLM response did not match schema", some raw⟩ ∧
    (∀ pl, generate_lifestyle_plan raw ≠ .ok pl) ∧
    ("LLM response did not match schema" : String) ≠ "Failed to parse LLM response" := by
  have hv : ∀ p, validateLifestylePlan (.obj fs) ≠ .ok p := by
    intro p hok
    have hpresent := validateLifestylePlan_ok_present hok k hk
    rw [hmiss] at hpresent
    exact Bool.noConfusion hpresent
  cases hval : validateLifestylePlan (.obj fs) with
  | ok p => exact absurd hval (hv p)
  | error e =>
    have hgen : generate_lifestyle_plan raw =
        .error ⟨"LLM response did not match schema", some raw⟩ := by
      unfold generate_lifestyle_plan
      rw [hparse]
      simp only []
      rw [hval]
    refine ⟨hgen, ?_, by decide⟩
    intro pl hc
    rw [hgen] at hc
    exact Except.noConfusion hc

/-- Witness for C3: the response text consisting of an empty JSON object
parses but lacks every domain, and fails with the schema-kind error
carrying the text unchanged. -/
theorem C3_missing_domain_schema_error_witness :
    parseJson "\x7b\x7d" = some (.obj []) ∧
    generate_lifestyle_plan "\x7b\x7d" =
      .error ⟨"LLM response did not match schema", some "\x7b\x7d"⟩ := by
  refine ⟨rfl, ?_⟩
  exact (C3_missing_domain_schema_error "\x7b\x7d" [] "healthy_eating" rfl (by decide) rfl).1

/-! ## Claim C2 -/

set_option maxRecDepth 400000 in
/-- Counterexample to claim C2: a model response that parses as a JSON
object containing all six domains PLUS an extra top-level domain key
(and an extra domain sub-field) is NOT rejected as a schema failure —
`generate_lifestyle_plan` returns a plan (pydantic's default
`extra='ignore'` silently drops unknown keys). -/
theorem C2_extra_keys_accepted_counterexample :
    parseJson c2Raw = some c2Json ∧
    generate_lifestyle_plan c2Raw = .ok (c2Plan, c2Raw) := by
  exact ⟨rfl, rfl⟩

/-- Appending a binding for an unlooked-at key leaves the last-wins
lookup of any other key unchanged. -/
theorem dictGet_append_ne {k2 k : String} (hne : k2 ≠ k)
    (fs : List (String × Json)) (v : Json) :
    dictGet (fs ++ [(k2, v)]) k = dictGet fs k := by
  induction fs with
  | nil => simp [dictGet, hne]
  | cons kv rest ih => simp [dictGet, ih]

/-- Claim C2 as amended: validation IGNORES unknown keys (pydantic's
default `extra='ignore'`): appending an extra top-level key outside the
six domain names, or an extra domain sub-field outside the four declared
field names, leaves the validation result unchanged — so an object with
all six valid domains plus extra keys yields a Plan rather than a schema
failure.  (Missing domains and wrong field types are still rejected, per
C3.) -/
theorem C2_extra_keys_ignored :
    (∀ (fs : List (String × Json)) (k : String) (v : Json),
      k ∉ requiredDomainKeys →
      validateLifestylePlan (.obj (fs ++ [(k, v)])) = validateLifestylePlan (.obj fs)) ∧
    (∀ (fs : List (String × Json)) (k : String) (v : Json),
      k ∉ domainFieldKeys →
      validateDomain (.obj (fs ++ [(k, v)])) = validateDomain (.obj fs)) := by
  constructor
  · intro fs k v hk
    simp only [requiredDomainKeys, List.mem_cons, List.not_mem_nil, or_false, not_or] at hk
    obtain ⟨h1, h2, h3, h4, h5, h6⟩ := hk
    unfold validateLifestylePlan
    simp only [requiredField]
    rw [dictGet_append_ne h1, dictGet_append_ne h2, dictGet_append_ne h3,
        dictGet_append_ne h4, dictGet_append_ne h5, dictGet_append_ne h6]
  · intro fs k v hk
    simp only [domainFieldKeys, List.mem_cons, List.not_mem_nil, or_false, not_or] at hk
    obtain ⟨h1, h2, h3, h4⟩ := hk
    unfold validateDomain
    simp only [requiredField]
    rw [dictGet_append_ne h1, dictGet_append_ne h2, dictGet_append_ne h3,
        dictGet_append_ne h4]

/-- Witness for the amended C2: appending the concrete extra top-level
key (resp. extra domain sub-field) leaves validation of the concrete
well-formed object unchanged. -/
theorem C2_extra_keys_ignored_witness :
    validateLifestylePlan (.obj (c2SixFields ++ [("extra_domain", .obj [])])) =
      validateLifestylePlan (.obj c2SixFields) ∧
    validateDomain (.obj ([("baseline", .str "b"), ("smart_goals", .arr []),
        ("tracking_kpis", .arr []), ("evidence_quotes", .arr [])] ++ [("extra_sub", .num 1)])) =
      validateDomain (.obj [("baseline", .str "b"), ("smart_goals", .arr []),
        ("tracking_kpis", .arr []), ("evidence_quotes", .arr [])]) := by
  constructor
  · exact C2_extra_keys_ignored.1 c2SixFields "extra_domain" (.obj []) (by decide)
  · exact C2_extra_keys_ignored.2 [("baseline", .str "b"), ("smart_goals", .arr []),
      ("tracking_kpis", .arr []), ("evidence_quotes", .arr [])] "extra_sub" (.num 1) (by decide)

/-! ## Claim C10 -/

/-- The value of `x or "unknown"` is truthy or the sentinel. -/
theorem truthyOrElse_unknown (o : Option Json) {c : Json}
    (h : truthyOrElse o (.str "unknown") = c) :
    jTruthy c = true ∨ c = .str "unknown" := by
  cases o with
  | none => exact Or.inr h.symm
  | some j =>
    simp only [truthyOrElse] at h
    by_cases hj : jTruthy j = true
    · rw [if_pos hj] at h
      exact Or.inl (h ▸ hj)
    · rw [if_neg hj] at h
      exact Or.inr h.symm

/-- A resolved conversation id is truthy or the sentinel `"unknown"`. -/
theorem resolveConvoId_ok {d c : Json} (h : resolveConvoId d = .ok c) :
    jTruthy c = true ∨ c = .str "unknown" := by
  unfold resolveConvoId resolveIdFallback at h
  cases d with
  | obj dfs =>
    simp only [pyGet, exBind] at h
    split at h
    · rename_i v heq
      by_cases hv : jTruthy v = true
      · rw [if_pos hv] at h
        exact Or.inl ((Except.ok.inj h) ▸ hv)
      · rw [if_neg hv] at h
        exact truthyOrElse_unknown _ (Except.ok.inj h)
    · exact truthyOrElse_unknown _ (Except.ok.inj h)
  | null => simp [pyGet, exBind] at h
  | bool b => simp [pyGet, exBind] at h
  | num n => simp [pyGet, exBind] at h
  | str s => simp [pyGet, exBind] at h
  | arr xs => simp [pyGet, exBind] at h

/-- Claim C10: the handler's session-identifier fallback is decided by
truthiness, not key presence: a missing or falsy `data` value makes the
whole normalization degrade to the `"unknown"` empty transcript; a
present-but-empty `conversation_id` falls through to the `id` value and
then to the sentinel `"unknown"`; and consequently the `session_id` of a
successfully normalized transcript — which keys the persisted artifact
set — is never the empty string. -/
theorem C10_truthiness_fallback :
    (∀ (fs : List (String × Json)),
      (dictGet fs ("data") = none ∨
        ∃ d, dictGet fs ("data") = some d ∧ jTruthy d = false) →
      normalizePayload (.obj fs) = .ok ⟨"unknown", "", []⟩) ∧
    (∀ (dfs : List (String × Json)),
      dictGet dfs ("conversation_id") = some (.str "") →
      resolveConvoId (.obj dfs) = resolveIdFallback (.obj dfs) ∧
      resolveIdFallback (.obj dfs) = .ok (truthyOrElse (dictGet dfs ("id")) (.str "unknown"))) ∧
    (∀ (p : Json) (t : SessionTranscript),
      normalizePayload p = .ok t → t.session_id ≠ "") := by
  refine ⟨?_, ?_, ?_⟩
  · intro fs hdata
    have hempty : truthyOrElse (dictGet fs ("data")) (.obj []) = .obj [] := by
      rcases hdata with hnone | ⟨d, hd, hfalse⟩
      · rw [hnone]
        rfl
      · rw [hd]
        simp only [truthyOrElse, hfalse, Bool.false_eq_true, if_false]
    unfold normalizePayload
    simp only [pyGet, exBind]
    rw [hempty]
    rfl
  · intro dfs hc
    constructor
    · unfold resolveConvoId
      simp only [pyGet, exBind]
      rw [hc]
      simp [jTruthy]
    · rfl
  · intro p t h
    unfold normalizePayload at h
    obtain ⟨dataOpt, _, h⟩ := exBind_ok_iff.mp h
    unfold normalizeWithData at h
    obtain ⟨convoJ, hconvo, h⟩ := exBind_ok_iff.mp h
    obtain ⟨itemsJ, _, h⟩ := exBind_ok_iff.mp h
    obtain ⟨items, _, h⟩ := exBind_ok_iff.mp h
    obtain ⟨utts, _, h⟩ := exBind_ok_iff.mp h
    obtain ⟨sid, hsid, h⟩ := exBind_ok_iff.mp h
    have ht : t.session_id = sid := by
      rw [← Except.ok.inj h]
    have hstr : convoJ = .str sid := by
      cases convoJ <;> simp_all [validateStrField]
    rcases resolveConvoId_ok hconvo with htr | hunk
    · rw [hstr] at htr
      rw [ht]
      simpa [jTruthy] using htr
    · rw [hstr] at hunk
      injection hunk with hsid'
      rw [ht, hsid']
      decide

/-- Witness for C10: a `null` (falsy) `data` value degrades to the
`"unknown"` empty transcript; a present-but-empty `conversation_id`
falls through to the `id` value; and the resulting session id of a
concrete normalization is non-empty. -/
theorem C10_truthiness_fallback_witness :
    normalizePayload (.obj [("data", .null), ("x", .num 7)]) = .ok ⟨"unknown", "", []⟩ ∧
    resolveConvoId (.obj [("conversation_id", .str ""), ("id", .str "i9")]) = .ok (.str "i9") ∧
    (SessionTranscript.mk "unknown" "" []).session_id ≠ "" := by
  refine ⟨?_, ?_, ?_⟩
  · exact C10_truthiness_fallback.1 [("data", .null), ("x", .num 7)]
      (Or.inr ⟨.null, rfl, rfl⟩)
  · have h2 := C10_truthiness_fallback.2.1 [("conversation_id", .str ""), ("id", .str "i9")] rfl
    rw [h2.1, h2.2]
    rfl
  · exact C10_truthiness_fallback.2.2 (.obj []) ⟨"unknown", "", []⟩ rfl

/-! ## Claim C6 -/

/-- A well-shaped item list builds successfully. -/
theorem buildUtterances_ok_of_wellShaped :
    ∀ (items : List Json), items.all wellShapedItem = true →
      ∃ utts, buildUtterances items = .ok utts := by
  intro items hall
  induction items with
  | nil => exact ⟨[], rfl⟩
  | cons item rest ih =>
    rw [List.all_cons, Bool.and_eq_true] at hall
    obtain ⟨hitem, hrest⟩ := hall
    obtain ⟨utts, hutts⟩ := ih hrest
    cases item with
    | obj fs =>
      simp only [wellShapedItem] at hitem
      split at hitem
      · rename_i m hm
        unfold buildUtterances
        rw [hm]
        simp only [exBind]
        cases hjm : jTruthy m with
        | false =>
          simp only [hjm]
          exact ⟨utts, by simp [hutts]⟩
        | true =>
          rw [hjm] at hitem
          simp only [Bool.not_true, Bool.false_or, Bool.and_eq_true] at hitem
          obtain ⟨hstr, hspk⟩ := hitem
          obtain ⟨s, rfl⟩ : ∃ s, m = .str s := by
            cases m <;> simp_all [isStrJ]
          unfold speakerIsStr at hspk
          split at hspk
          · rename_i sp hsp
            rw [hsp]
            simp only [exBind, validateStrField, hutts]
            exact ⟨_, rfl⟩
          · exact Bool.noConfusion hspk
      · exact Bool.noConfusion hitem
    | null => simp [wellShapedItem] at hitem
    | bool b => simp [wellShapedItem] at hitem
    | num n => simp [wellShapedItem] at hitem
    | str s => simp [wellShapedItem] at hitem
    | arr xs => simp [wellShapedItem] at hitem

/-- The texts of the built utterances are exactly the kept texts, in
order. -/
theorem buildUtterances_texts :
    ∀ (items : List Json) (utts : List TranscriptUtterance),
      buildUtterances items = .ok utts →
      utts.map TranscriptUtterance.text = keptTexts items := by
  intro items
  induction items with
  | nil =>
    intro utts h
    have : utts = [] := (Except.ok.inj h).symm
    subst this
    rfl
  | cons item rest ih =>
    intro utts h
    unfold buildUtterances at h
    obtain ⟨m, hm, hf⟩ := exBind_ok_iff.mp h
    cases hjm : jTruthy m with
    | false =>
      rw [hjm] at hf
      simp only [if_pos] at hf
      have hkept : keptTexts (item :: rest) = keptTexts rest := by
        simp only [keptTexts, List.filterMap_cons, hm]
        cases m with
        | str s =>
          have : s = "" := by
            simpa [jTruthy] using hjm
          subst this
          simp
        | null => simp
        | bool b => simp
        | num n => simp
        | arr xs => simp
        | obj fs => simp
      rw [hkept]
      exact ih utts hf
    | true =>
      rw [hjm] at hf
      simp only [Bool.true_eq_false, if_false] at hf
      obtain ⟨spJ, hsp, hf⟩ := exBind_ok_iff.mp hf
      obtain ⟨sp, hsps, hf⟩ := exBind_ok_iff.mp hf
      obtain ⟨txt, htxt, hf⟩ := exBind_ok_iff.mp hf
      obtain ⟨rest', hrest, hf⟩ := exBind_ok_iff.mp hf
      have hu : utts = ⟨sp, txt⟩ :: rest' := (Except.ok.inj hf).symm
      subst hu
      have hmstr : m = .str txt := by
        cases m <;> simp_all [validateStrField]
      subst hmstr
      have htxtne : txt ≠ "" := by
        simpa [jTruthy] using hjm
      simp only [List.map_cons, keptTexts, List.filterMap_cons, hm, htxtne, if_neg]
      rw [← keptTexts]
      exact congrArg (txt :: ·) (ih rest' hrest)

/-- Counterexample to claim C6: normalization is not total — a payload
whose `data` value is a truthy non-object (here the number 5) makes the
normalization block raise `AttributeError` (`data.get(...)` on an int)
instead of producing a Transcript. -/
theorem C6_garbage_payload_raises_counterexample :
    normalizePayload (.obj [("data", .num 5)]) = .error .attributeError := rfl

/-- Claim C6 as amended: for well-shaped payloads (objects whose `data`,
conversation id, transcript list and items have the shapes the handler
dereferences) normalization succeeds; whenever it succeeds, `raw_text`
is the newline-join of the kept utterance texts in original order with
no trailing whitespace, the kept texts are exactly the non-empty
resolved messages (empty or absent ones dropped silently), and zero
usable items yield an empty utterance list and empty `raw_text`.
Ill-shaped payloads (for example a numeric `data` value) raise instead
of degrading. -/
theorem C6_normalization_wellshaped :
    (∀ (p : Json), wellShapedPayload p = true → ∃ t, normalizePayload p = .ok t) ∧
    (∀ (p : Json) (t : SessionTranscript), normalizePayload p = .ok t →
      t.raw_text = String.intercalate ("\n") (t.transcript.map TranscriptUtterance.text)) ∧
    (∀ (items : List Json) (utts : List TranscriptUtterance),
      buildUtterances items = .ok utts →
      utts.map TranscriptUtterance.text = keptTexts items) ∧
    (∀ (p : Json) (t : SessionTranscript), normalizePayload p = .ok t →
      t.transcript = [] → t.raw_text = "") := by
  have hraw : ∀ (p : Json) (t : SessionTranscript), normalizePayload p = .ok t →
      t.raw_text = String.intercalate ("\n") (t.transcript.map TranscriptUtterance.text) := by
    intro p t h
    unfold normalizePayload at h
    obtain ⟨dataOpt, _, h⟩ := exBind_ok_iff.mp h
    unfold normalizeWithData at h
    obtain ⟨convoJ, _, h⟩ := exBind_ok_iff.mp h
    obtain ⟨itemsJ, _, h⟩ := exBind_ok_iff.mp h
    obtain ⟨items, _, h⟩ := exBind_ok_iff.mp h
    obtain ⟨utts, _, h⟩ := exBind_ok_iff.mp h
    obtain ⟨sid, _, h⟩ := exBind_ok_iff.mp h
    rw [← Except.ok.inj h]
  refine ⟨?_, hraw, buildUtterances_texts, ?_⟩
  · intro p hp
    cases p with
    | obj fs =>
      simp only [wellShapedPayload] at hp
      split at hp
      · rename_i dfs hdata
        rw [Bool.and_eq_true] at hp
        obtain ⟨hconvo, hitems⟩ := hp
        split at hconvo
        · rename_i c hc
          obtain ⟨s, rfl⟩ : ∃ s, c = .str s := by
            cases c <;> simp_all [isStrJ]
          split at hitems
          · rename_i items hitemsval
            obtain ⟨utts, hutts⟩ := buildUtterances_ok_of_wellShaped items hitems
            refine ⟨⟨s, String.intercalate ("\n") (utts.map TranscriptUtterance.text), utts⟩, ?_⟩
            unfold normalizePayload
            simp only [pyGet, exBind]
            rw [hdata]
            unfold normalizeWithData
            rw [hc]
            simp only [pyGet, exBind]
            rw [hitemsval]
            simp only [exBind, iterItems, hutts, validateStrField]
          · exact Bool.noConfusion hitems
        · exact Bool.noConfusion hconvo
      · exact Bool.noConfusion hp
    | null => simp [wellShapedPayload] at hp
    | bool b => simp [wellShapedPayload] at hp
    | num n => simp [wellShapedPayload] at hp
    | str s => simp [wellShapedPayload] at hp
    | arr xs => simp [wellShapedPayload] at hp
  · intro p t h hnil
    rw [hraw p t h, hnil]
    rfl

/-- Witness for the amended C6, on Scenario A's payload: it is
well-shaped and normalizes; the normalized transcript satisfies the
`raw_text` join equation (giving `"Hi\nHello"`); the built utterance
texts are the kept texts; and the empty payload yields the empty
transcript with empty `raw_text`. -/
theorem C6_normalization_wellshaped_witness :
    (∃ t, normalizePayload scenarioAJson = .ok t) ∧
    (SessionTranscript.mk "c1" "Hi\nHello" [⟨"coach", "Hi"⟩, ⟨"client", "Hello"⟩]).raw_text =
      String.intercalate ("\n")
        ((SessionTranscript.mk "c1" "Hi\nHello"
          [⟨"coach", "Hi"⟩, ⟨"client", "Hello"⟩]).transcript.map TranscriptUtterance.text) ∧
    ([⟨"coach", "Hi"⟩, ⟨"client", "Hello"⟩] : List TranscriptUtterance).map
        TranscriptUtterance.text =
      keptTexts [.obj [("role", .str "coach"), ("message", .str "Hi")],
                 .obj [("role", .str "client"), ("text", .str "Hello")]] ∧
    (SessionTranscript.mk "unknown" "" []).raw_text = "" := by
  refine ⟨?_, ?_, ?_, ?_⟩
  · exact C6_normalization_wellshaped.1 scenarioAJson rfl
  · exact C6_normalization_wellshaped.2.1 scenarioAJson
      ⟨"c1", "Hi\nHello", [⟨"coach", "Hi"⟩, ⟨"client", "Hello"⟩]⟩ rfl
  · exact C6_normalization_wellshaped.2.2.1
      [.obj [("role", .str "coach"), ("message", .str "Hi")],
       .obj [("role", .str "client"), ("text", .str "Hello")]]
      [⟨"coach", "Hi"⟩, ⟨"client", "Hello"⟩] rfl
  · exact C6_normalization_wellshaped.2.2.2 (.obj []) ⟨"unknown", "", []⟩ rfl rfl

/-! ## Claim C7 -/

/-- The error message occurs verbatim in the failure note. -/
theorem message_substr_failureNote (raw_response : Option String) (error_message : String) :
    SubstrOf error_message (failureNoteText raw_response error_message) := by
  refine ⟨"Plan generation failed: ",
    "\n\n" ++
      (match raw_response with
       | some r => if r = "" then "" else "Raw LLM response:\n" ++ r
       | none => ""), ?_⟩
  unfold failureNoteText
  rw [String.append_assoc, String.append_assoc]

/-- The raw response occurs verbatim in the failure note. -/
theorem raw_substr_failureNote (r : String) (error_message : String) :
    SubstrOf r (failureNoteText (some r) error_message) := by
  by_cases hr : r = ""
  · subst hr
    exact ⟨failureNoteText (some "") error_message, "", by simp⟩
  · refine ⟨"Plan generation failed: " ++ error_message ++ "\n\n" ++ "Raw LLM response:\n",
      "", ?_⟩
    have hlit : ("\n\n" : String) ++ ("Raw LLM response:\n" ++ r) =
        "\n\nRaw LLM response:\n" ++ r := by
      rw [← String.append_assoc]
      rfl
    simp [failureNoteText, hr, String.append_assoc, hlit]

/-- Claim C7: when plan generation fails with a `PlanGenerationError`, the
webhook handler returns the HTTP-200 `plan_failed` response body
(`status`, `conversation_id`, `session_dir`, `error`) rather than an
error status, and the written failure artifact set is the transcript
record plus `plan_failure.txt`, whose text contains the error message
and the raw upstream response verbatim. -/
theorem C7_plan_failure_response (secret : Option String) (now : Int) (output_dir : String)
    (raw_body : List Nat) (sig : Option String) (llm_raw : String)
    (text : String) (payload : Json) (st : SessionTranscript) (e : PlanGenerationError)
    (hver : verify_signature secret now raw_body sig = .ok true)
    (hdec : utf8Decode raw_body = some text)
    (hparse : parseJson text = some payload)
    (hnorm : normalizePayload payload = .ok st)
    (hgen : generate_lifestyle_plan llm_raw = .error e) :
    elevenlabs_webhook secret now output_dir raw_body sig llm_raw =
      .ok (.response
        (.obj [("status", .str "plan_failed"),
               ("conversation_id", .str st.session_id),
               ("session_dir", .str (output_dir ++ "/" ++ st.session_id)),
               ("error", .str e.message)])
        (output_dir ++ "/" ++ st.session_id)
        [("session_transcript.json", pyJsonDumpIndent2 (dumpTranscript st)),
         ("plan_failure.txt", failureNoteText e.raw_response e.message)]) ∧
    SubstrOf e.message (failureNoteText e.raw_response e.message) ∧
    (∀ r, e.raw_response = some r →
      SubstrOf r (failureNoteText e.raw_response e.message)) := by
  refine ⟨?_, message_substr_failureNote e.raw_response e.message, ?_⟩
  · unfold elevenlabs_webhook
    rw [hver]
    simp only [exBind, Bool.true_eq_false, if_false, hdec, hparse, hnorm, hgen,
      save_failure_outputs]
  · intro r hr
    rw [hr]
    exact raw_substr_failureNote r e.message

set_option maxRecDepth 1000000 in
/-- Witness for C7: the Scenario A body with no secret configured and an
upstream response of `"not json"` produces the `plan_failed` 200
response and the failure artifacts, with `"not json"` occurring verbatim
in `plan_failure.txt`. -/
theorem C7_plan_failure_response_witness :
    elevenlabs_webhook none 0 "output" (utf8Encode (pyJsonDumpIndent2 scenarioAJson))
        none "not json" =
      .ok (.response
        (.obj [("status", .str "plan_failed"),
               ("conversation_id", .str "c1"),
               ("session_dir", .str "output/c1"),
               ("error", .str "Failed to parse LLM response")])
        "output/c1"
        [("session_transcript.json",
          pyJsonDumpIndent2 (dumpTranscript ⟨"c1", "Hi\nHello",
            [⟨"coach", "Hi"⟩, ⟨"client", "Hello"⟩]⟩)),
         ("plan_failure.txt",
          failureNoteText (some "not json") "Failed to parse LLM response")]) ∧
    SubstrOf "not json" (failureNoteText (some "not json") "Failed to parse LLM response") := by
  have h := C7_plan_failure_response none 0 "output"
    (utf8Encode (pyJsonDumpIndent2 scenarioAJson)) none "not json"
    (pyJsonDumpIndent2 scenarioAJson) scenarioAJson
    ⟨"c1", "Hi\nHello", [⟨"coach", "Hi"⟩, ⟨"client", "Hello"⟩]⟩
    ⟨"Failed to parse LLM response", some "not json"⟩
    rfl rfl rfl rfl rfl
  exact ⟨h.1, h.2.2 "not json" rfl⟩

/-! ## Claim C8: parser/printer round trip on plan dumps -/

theorem hexVal_hexDigitChar {x : Nat} (hx : x < 16) : hexVal (hexDigitChar x) = some x := by
  interval_cases x <;> rfl

theorem parseStrChars_quote (f : Nat) (rest : List Char) :
    parseStrChars (f+1) ('"' :: rest) = some ([], rest) := rfl

theorem parseStrChars_esc_quote (f : Nat) (tail : List Char) :
    parseStrChars (f+1) ('\\' :: '"' :: tail) =
      (parseStrChars f tail).map (fun p => ('"' :: p.1, p.2)) := rfl

theorem parseStrChars_esc_backslash (f : Nat) (tail : List Char) :
    parseStrChars (f+1) ('\\' :: '\\' :: tail) =
      (parseStrChars f tail).map (fun p => ('\\' :: p.1, p.2)) := rfl

theorem parseStrChars_esc_n (f : Nat) (tail : List Char) :
    parseStrChars (f+1) ('\\' :: 'n' :: tail) =
      (parseStrChars f tail).map (fun p => ('\n' :: p.1, p.2)) := rfl

theorem parseStrChars_esc_t (f : Nat) (tail : List Char) :
    parseStrChars (f+1) ('\\' :: 't' :: tail) =
      (parseStrChars f tail).map (fun p => ('\t' :: p.1, p.2)) := rfl

theorem parseStrChars_esc_r (f : Nat) (tail : List Char) :
    parseStrChars (f+1) ('\\' :: 'r' :: tail) =
      (parseStrChars f tail).map (fun p => ('\r' :: p.1, p.2)) := rfl

theorem parseStrChars_esc_b (f : Nat) (tail : List Char) :
    parseStrChars (f+1) ('\\' :: 'b' :: tail) =
      (parseStrChars f tail).map (fun p => ('\x08' :: p.1, p.2)) := rfl

theorem parseStrChars_esc_f (f : Nat) (tail : List Char) :
    parseStrChars (f+1) ('\\' :: 'f' :: tail) =
      (parseStrChars f tail).map (fun p => ('\x0c' :: p.1, p.2)) := rfl

theorem parseStrChars_esc_u (f : Nat) {r : List Char} {ch : Char} {r2 : List Char}
    (h : parseUEsc r = some (ch, r2)) :
    parseStrChars (f+1) ('\\' :: 'u' :: r) =
      (parseStrChars f r2).map (fun p => (ch :: p.1, p.2)) := by
  have hstep : parseStrChars (f+1) ('\\' :: 'u' :: r) =
      match parseUEsc r with
      | some (ch, r2) => (parseStrChars f r2).map (fun p => (ch :: p.1, p.2))
      | none => none := rfl
  rw [hstep, h]

theorem parseUEsc_low (h1c h2c h3c h4c : Char) {a b c' d : Nat} (tail : List Char)
    (e1 : hexVal h1c = some a) (e2 : hexVal h2c = some b) (e3 : hexVal h3c = some c')
    (e4 : hexVal h4c = some d)
    (hlow : ((a * 16 + b) * 16 + c') * 16 + d < 0xD800) :
    parseUEsc (h1c :: h2c :: h3c :: h4c :: tail) =
      some (Char.ofNat (((a * 16 + b) * 16 + c') * 16 + d), tail) := by
  have hq : hexQuad h1c h2c h3c h4c = some (((a * 16 + b) * 16 + c') * 16 + d) := by
    simp [hexQuad, e1, e2, e3, e4]
  have hs1 : (decide (0xD800 ≤ ((a * 16 + b) * 16 + c') * 16 + d) &&
      decide (((a * 16 + b) * 16 + c') * 16 + d ≤ 0xDBFF)) = false := by
    simp only [Bool.and_eq_false_iff, decide_eq_false_iff_not, not_le]
    left
    omega
  have hs2 : (decide (0xDC00 ≤ ((a * 16 + b) * 16 + c') * 16 + d) &&
      decide (((a * 16 + b) * 16 + c') * 16 + d ≤ 0xDFFF)) = false := by
    simp only [Bool.and_eq_false_iff, decide_eq_false_iff_not, not_le]
    left
    omega
  simp only [parseUEsc, hq, hs1, hs2, Bool.false_eq_true, if_false]

theorem parseStrChars_plain (f : Nat) {c : Char} (h1 : ¬ c = '"') (h2 : ¬ c = '\\')
    (h3 : ¬ c.toNat < 0x20) (rest : List Char) :
    parseStrChars (f+1) (c :: rest) =
      (parseStrChars f rest).map (fun p => (c :: p.1, p.2)) := by
  have hstep : parseStrChars (f+1) (c :: rest) =
      (if c = '"' then some ([], rest)
       else if c = '\\' then
         match rest with
         | [] => none
         | e :: r =>
           if e = '"' then (parseStrChars f r).map (fun p => ('"' :: p.1, p.2))
           else if e = '\\' then (parseStrChars f r).map (fun p => ('\\' :: p.1, p.2))
           else if e = '/' then (parseStrChars f r).map (fun p => ('/' :: p.1, p.2))
           else if e = 'n' then (parseStrChars f r).map (fun p => ('\n' :: p.1, p.2))
           else if e = 't' then (parseStrChars f r).map (fun p => ('\t' :: p.1, p.2))
           else if e = 'r' then (parseStrChars f r).map (fun p => ('\r' :: p.1, p.2))
           else if e = 'b' then (parseStrChars f r).map (fun p => ('\x08' :: p.1, p.2))
           else if e = 'f' then (parseStrChars f r).map (fun p => ('\x0c' :: p.1, p.2))
           else if e = 'u' then
             match parseUEsc r with
             | some (ch, r2) => (parseStrChars f r2).map (fun p => (ch :: p.1, p.2))
             | none => none
           else none
       else if c.toNat < 0x20 then none
       else (parseStrChars f rest).map (fun p => (c :: p.1, p.2))) := rfl
  rw [hstep, if_neg h1, if_neg h2, if_neg h3]

theorem escapeChar_length_pos (c : Char) : 0 < (escapeChar c).length := by
  unfold escapeChar
  split_ifs <;> simp

theorem length_le_escape_length (cs : List Char) :
    cs.length ≤ ((cs.map escapeChar).flatten).length := by
  induction cs with
  | nil => simp
  | cons c cs ih =>
    simp only [List.map_cons, List.flatten_cons, List.length_append, List.length_cons]
    have := escapeChar_length_pos c
    omega

/-- The string-body parser undoes the `json.dumps` escaper. -/
theorem parseStrChars_escape (cs : List Char) : ∀ f, cs.length < f → ∀ rest : List Char,
    parseStrChars f ((cs.map escapeChar).flatten ++ '"' :: rest) = some (cs, rest) := by
  induction cs with
  | nil =>
    intro f hf rest
    cases f with
    | zero => simp at hf
    | succ f =>
      rw [List.map_nil, List.flatten_nil, List.nil_append, parseStrChars_quote]
  | cons c cs ih =>
    intro f hf rest
    cases f with
    | zero => simp at hf
    | succ f =>
      have hf' : cs.length < f := by
        simp only [List.length_cons] at hf
        omega
      rw [List.map_cons, List.flatten_cons, List.append_assoc]
      by_cases h1 : c = '"'
      · subst h1
        rw [show escapeChar '"' = ['\\', '"'] from rfl]
        rw [List.cons_append, List.cons_append, List.nil_append, parseStrChars_esc_quote,
          ih f hf' rest]
        rfl
      · by_cases h2 : c = '\\'
        · subst h2
          rw [show escapeChar '\\' = ['\\', '\\'] from rfl]
          rw [List.cons_append, List.cons_append, List.nil_append, parseStrChars_esc_backslash,
            ih f hf' rest]
          rfl
        · by_cases h3 : c = '\n'
          · subst h3
            rw [show escapeChar '\n' = ['\\', 'n'] from rfl]
            rw [List.cons_append, List.cons_append, List.nil_append, parseStrChars_esc_n,
              ih f hf' rest]
            rfl
          · by_cases h4 : c = '\t'
            · subst h4
              rw [show escapeChar '\t' = ['\\', 't'] from rfl]
              rw [List.cons_append, List.cons_append, List.nil_append, parseStrChars_esc_t,
                ih f hf' rest]
              rfl
            · by_cases h5 : c = '\r'
              · subst h5
                rw [show escapeChar '\r' = ['\\', 'r'] from rfl]
                rw [List.cons_append, List.cons_append, List.nil_append, parseStrChars_esc_r,
                  ih f hf' rest]
                rfl
              · by_cases h6 : c = '\x08'
                · subst h6
                  rw [show escapeChar '\x08' = ['\\', 'b'] from rfl]
                  rw [List.cons_append, List.cons_append, List.nil_append, parseStrChars_esc_b,
                    ih f hf' rest]
                  rfl
                · by_cases h7 : c = '\x0c'
                  · subst h7
                    rw [show escapeChar '\x0c' = ['\\', 'f'] from rfl]
                    rw [List.cons_append, List.cons_append, List.nil_append, parseStrChars_esc_f,
                      ih f hf' rest]
                    rfl
                  · by_cases h8 : c.toNat < 0x20
                    · have hesc : escapeChar c =
                          ['\\', 'u', '0', '0', hexDigitChar (c.toNat / 16),
                           hexDigitChar (c.toNat % 16)] := by
                        unfold escapeChar
                        rw [if_neg h1, if_neg h2, if_neg h3, if_neg h4, if_neg h5, if_neg h6,
                          if_neg h7, if_pos h8]
                      rw [hesc]
                      simp only [List.cons_append, List.nil_append]
                      have e12 : hexVal '0' = some 0 := rfl
                      have e3 : hexVal (hexDigitChar (c.toNat / 16)) = some (c.toNat / 16) :=
                        hexVal_hexDigitChar (by omega)
                      have e4 : hexVal (hexDigitChar (c.toNat % 16)) = some (c.toNat % 16) :=
                        hexVal_hexDigitChar (by omega)
                      have hlow : ((0 * 16 + 0) * 16 + c.toNat / 16) * 16 + c.toNat % 16 <
                          0xD800 := by
                        omega
                      have hu := parseUEsc_low '0' '0' (hexDigitChar (c.toNat / 16))
                        (hexDigitChar (c.toNat % 16))
                        ((cs.map escapeChar).flatten ++ '"' :: rest) e12 e12 e3 e4 hlow
                      rw [show ((0 * 16 + 0) * 16 + c.toNat / 16) * 16 + c.toNat % 16 = c.toNat
                        from by omega] at hu
                      rw [Char.ofNat_toNat] at hu
                      rw [parseStrChars_esc_u f hu, ih f hf' rest]
                      rfl
                    · have hesc : escapeChar c = [c] := by
                        unfold escapeChar
                        rw [if_neg h1, if_neg h2, if_neg h3, if_neg h4, if_neg h5, if_neg h6,
                          if_neg h7, if_neg h8]
                      rw [hesc]
                      simp only [List.cons_append, List.nil_append]
                      rw [parseStrChars_plain f h1 h2 h8, ih f hf' rest]
                      rfl

/-- The printed string literal parses back, leaving the rest. -/
theorem parseStrChars_printStrLit (s : String) (f : Nat) (hf : s.data.length < f)
    (rest : List Char) :
    parseStrChars f (escapeString s ++ '"' :: rest) = some (s.data, rest) :=
  parseStrChars_escape s.data f hf rest

theorem skipWs_cons_of_neg {c : Char} (hc : wsJson c = false) (l : List Char) :
    skipWs (c :: l) = c :: l := by
  simp [skipWs, List.dropWhile_cons, hc]

theorem skipWs_space (l : List Char) : skipWs (' ' :: l) = skipWs l := by
  simp [skipWs, List.dropWhile_cons, wsJson]

theorem skipWs_newline (l : List Char) : skipWs ('\n' :: l) = skipWs l := by
  simp [skipWs, List.dropWhile_cons, wsJson]

theorem skipWs_ind (n : Nat) (rest : List Char) :
    skipWs (indChars n ++ rest) = skipWs rest := by
  induction n with
  | zero => rfl
  | succ n ih =>
    rw [indChars, List.replicate_succ, List.cons_append, skipWs_space, ← indChars, ih]

theorem skipWs_skipWs (l : List Char) : skipWs (skipWs l) = skipWs l := by
  induction l with
  | cons c l ih =>
    by_cases hc : wsJson c = true
    · have h2 : skipWs (c :: l) = skipWs l := by
        simp [skipWs, List.dropWhile_cons, hc]
      rw [h2, ih]
    · rw [skipWs_cons_of_neg (by simpa using hc), skipWs_cons_of_neg (by simpa using hc)]
  | nil => rfl

/-- The value parser only looks at the whitespace-stripped input. -/
theorem parseGo_val_skipWs (f : Nat) (input : List Char) :
    parseGo f .val input = parseGo f .val (skipWs input) := by
  cases f with
  | zero => rfl
  | succ f => simp only [parseGo, skipWs_skipWs]

theorem parseGo_val_space (f : Nat) (l : List Char) :
    parseGo f .val (' ' :: l) = parseGo f .val l := by
  rw [parseGo_val_skipWs, skipWs_space, ← parseGo_val_skipWs]

theorem parseGo_val_newline (f : Nat) (l : List Char) :
    parseGo f .val ('\n' :: l) = parseGo f .val l := by
  rw [parseGo_val_skipWs, skipWs_newline, ← parseGo_val_skipWs]

theorem parseGo_val_ind (f n : Nat) (l : List Char) :
    parseGo f .val (indChars n ++ l) = parseGo f .val l := by
  rw [parseGo_val_skipWs, skipWs_ind, ← parseGo_val_skipWs]

theorem roundTrips_mono {n n' : Nat} {v : Json} (h : n ≤ n') (hv : RoundTrips n v) :
    RoundTrips n' v :=
  fun lvl f rest hf => hv lvl f rest (le_trans h hf)

theorem roundTrips_str (s : String) : RoundTrips 1 (.str s) := by
  intro lvl f rest hf
  cases f with
  | zero => omega
  | succ f =>
    have hdata : s.data.length < (escapeString s ++ '"' :: rest).length + 1 := by
      have := length_le_escape_length s.data
      simp only [List.length_append, List.length_cons, escapeString]
      omega
    have hps : printJ lvl (.str s) ++ rest = '"' :: (escapeString s ++ '"' :: rest) := by
      simp [printJ, printStrLit]
    rw [hps]
    have hsw : skipWs ('"' :: (escapeString s ++ '"' :: rest)) =
        '"' :: (escapeString s ++ '"' :: rest) := skipWs_cons_of_neg (by decide) _
    simp only [parseGo, hsw]
    rw [parseStrChars_printStrLit s _ hdata rest]
    have hmk : String.mk s.data = s := by
      cases s
      rfl
    simp [hmk]

theorem roundTrips_null : RoundTrips 1 .null := by
  intro lvl f rest hf
  cases f with
  | zero => omega
  | succ f =>
    have hps : printJ lvl .null ++ rest = 'n' :: 'u' :: 'l' :: 'l' :: rest := rfl
    rw [hps]
    have hsw : skipWs ('n' :: 'u' :: 'l' :: 'l' :: rest) =
        'n' :: 'u' :: 'l' :: 'l' :: rest := skipWs_cons_of_neg (by decide) _
    simp only [parseGo, hsw]

theorem parseGo_val_arr_open (f : Nat) (r : List Char) :
    parseGo (f+1) .val ('[' :: r) = parseGo f .elems r := by
  have hs : skipWs ('[' :: r) = '[' :: r := skipWs_cons_of_neg (by decide) r
  simp only [parseGo, hs]

theorem parseGo_elems_close (f : Nat) (r : List Char) :
    parseGo (f+1) .elems (']' :: r) = some (.arr [], r) := by
  have hs : skipWs (']' :: r) = ']' :: r := skipWs_cons_of_neg (by decide) r
  simp only [parseGo, hs]

theorem parseGo_elems_go (f : Nat) {l : List Char} {r0 : List Char}
    (hs : skipWs l = '"' :: r0) :
    parseGo (f+1) .elems l =
      (match parseGo f .val l with
       | some (v, r) => parseGo f (.elemsRest [v]) r
       | none => none) := by
  simp only [parseGo, hs]
  rfl

theorem parseGo_elems_go_ok (f : Nat) {l r0 : List Char} {v : Json} {r : List Char}
    (hs : skipWs l = '"' :: r0) (h : parseGo f .val l = some (v, r)) :
    parseGo (f+1) .elems l = parseGo f (.elemsRest [v]) r := by
  rw [parseGo_elems_go f hs, h]

theorem parseGo_elemsRest_close (f : Nat) (acc : List Json) (r : List Char) :
    parseGo (f+1) (.elemsRest acc) (']' :: r) = some (.arr acc, r) := by
  have hs : skipWs (']' :: r) = ']' :: r := skipWs_cons_of_neg (by decide) r
  simp only [parseGo, hs]

theorem parseGo_elemsRest_comma (f : Nat) (acc : List Json) (l : List Char) :
    parseGo (f+1) (.elemsRest acc) (',' :: l) =
      (match parseGo f .val l with
       | some (v, r) => parseGo f (.elemsRest (acc ++ [v])) r
       | none => none) := by
  have hs : skipWs (',' :: l) = ',' :: l := skipWs_cons_of_neg (by decide) l
  simp only [parseGo, hs]

theorem parseGo_elemsRest_comma_ok (f : Nat) (acc : List Json) {l : List Char} {v : Json}
    {r : List Char} (h : parseGo f .val l = some (v, r)) :
    parseGo (f+1) (.elemsRest acc) (',' :: l) = parseGo f (.elemsRest (acc ++ [v])) r := by
  rw [parseGo_elemsRest_comma, h]

theorem parseGo_elemsRest_skipWs (f : Nat) (acc : List Json) (input : List Char) :
    parseGo f (.elemsRest acc) input = parseGo f (.elemsRest acc) (skipWs input) := by
  cases f with
  | zero => rfl
  | succ f => simp only [parseGo, skipWs_skipWs]

theorem parseGo_elemsRest_strs (lvl : Nat) (xs : List String) :
    ∀ f (acc : List Json) (rest : List Char), 2 * xs.length + 1 ≤ f →
    parseGo f (.elemsRest acc)
        (printArrTail (lvl+1) (xs.map .str) ++ '\n' :: (indChars (2*lvl) ++ ']' :: rest))
      = some (.arr (acc ++ xs.map .str), rest) := by
  induction xs with
  | nil =>
    intro f acc rest hf
    cases f with
    | zero => omega
    | succ f =>
      simp only [List.map_nil, printArrTail, List.nil_append, List.append_nil]
      rw [parseGo_elemsRest_skipWs]
      have hsw : skipWs ('\n' :: (indChars (2*lvl) ++ ']' :: rest)) = ']' :: rest := by
        rw [skipWs_newline, skipWs_ind, skipWs_cons_of_neg (by decide) rest]
      rw [hsw, parseGo_elemsRest_close]
  | cons x xs ih =>
    intro f acc rest hf
    cases f with
    | zero =>
      simp only [List.length_cons] at hf
      omega
    | succ f =>
      have hfx : 2 * xs.length + 1 ≤ f := by
        simp only [List.length_cons] at hf
        omega
      simp only [List.map_cons, printArrTail, List.cons_append, List.append_assoc]
      have hval : parseGo f .val
          ('\n' :: (indChars (2*(lvl+1)) ++ (printJ (lvl+1) (.str x) ++
            (printArrTail (lvl+1) (xs.map .str) ++
              '\n' :: (indChars (2*lvl) ++ ']' :: rest))))) =
          some (.str x,
            printArrTail (lvl+1) (xs.map .str) ++
              '\n' :: (indChars (2*lvl) ++ ']' :: rest)) := by
        rw [parseGo_val_newline, parseGo_val_ind]
        exact roundTrips_str x (lvl+1) f _ (by omega)
      rw [parseGo_elemsRest_comma_ok f acc hval]
      have h := ih f (acc ++ [.str x]) rest hfx
      simpa using h

theorem roundTrips_strArr (l : List String) :
    RoundTrips (2 * l.length + 2) (.arr (l.map .str)) := by
  intro lvl f rest hf
  cases l with
  | nil =>
    match f, hf with
    | f+2, _ =>
      have hps : printJ lvl (.arr (([] : List String).map .str)) ++ rest =
          '[' :: ']' :: rest := by
        simp [printJ]
      rw [hps, parseGo_val_arr_open, parseGo_elems_close]
      simp
  | cons x xs =>
    match f, hf with
    | f+2, hf =>
      have hfx : 2 * xs.length + 1 ≤ f := by
        simp only [List.length_cons] at hf
        omega
      have hps : printJ lvl (.arr ((x :: xs).map .str)) ++ rest =
          '[' :: '\n' :: (indChars (2*(lvl+1)) ++
            (printJ (lvl+1) (.str x) ++
              (printArrTail (lvl+1) (xs.map .str) ++
                '\n' :: (indChars (2*lvl) ++ ']' :: rest)))) := by
        simp [printJ, List.append_assoc]
      rw [hps, parseGo_val_arr_open]
      have hs2 : skipWs ('\n' :: (indChars (2*(lvl+1)) ++
          (printJ (lvl+1) (.str x) ++
            (printArrTail (lvl+1) (xs.map .str) ++
              '\n' :: (indChars (2*lvl) ++ ']' :: rest))))) =
          '"' :: (escapeString x ++ '"' ::
            (printArrTail (lvl+1) (xs.map .str) ++
              '\n' :: (indChars (2*lvl) ++ ']' :: rest))) := by
        rw [skipWs_newline, skipWs_ind]
        have hpx : printJ (lvl+1) (.str x) = '"' :: (escapeString x ++ ['"']) := by
          simp [printJ, printStrLit]
        rw [hpx]
        rw [List.cons_append, skipWs_cons_of_neg (by decide)]
        simp [List.append_assoc]
      have hval : parseGo f .val
          ('\n' :: (indChars (2*(lvl+1)) ++
            (printJ (lvl+1) (.str x) ++
              (printArrTail (lvl+1) (xs.map .str) ++
                '\n' :: (indChars (2*lvl) ++ ']' :: rest))))) =
          some (.str x,
            printArrTail (lvl+1) (xs.map .str) ++
              '\n' :: (indChars (2*lvl) ++ ']' :: rest)) := by
        rw [parseGo_val_newline, parseGo_val_ind]
        exact roundTrips_str x (lvl+1) f _ (by omega)
      rw [parseGo_elems_go_ok f hs2 hval]
      rw [parseGo_elemsRest_strs lvl xs f [.str x] rest (by omega)]
      simp

theorem parseGo_val_obj_open (f : Nat) (r : List Char) :
    parseGo (f+1) .val ('{' :: r) = parseGo f .fields r := by
  have hs : skipWs ('{' :: r) = '{' :: r := skipWs_cons_of_neg (by decide) r
  simp only [parseGo, hs]

theorem parseGo_fieldsRest_close (f : Nat) (acc : List (String × Json)) (r : List Char) :
    parseGo (f+1) (.fieldsRest acc) ('}' :: r) = some (.obj acc, r) := by
  have hs : skipWs ('}' :: r) = '}' :: r := skipWs_cons_of_neg (by decide) r
  simp only [parseGo, hs]

theorem parseGo_fieldsRest_skipWs (f : Nat) (acc : List (String × Json)) (input : List Char) :
    parseGo f (.fieldsRest acc) input = parseGo f (.fieldsRest acc) (skipWs input) := by
  cases f with
  | zero => rfl
  | succ f => simp only [parseGo, skipWs_skipWs]

theorem parseGo_fields_key_ok (f : Nat) {l r0 : List Char} {k : List Char} {r1 r2 : List Char}
    {v : Json} {r3 : List Char}
    (hs : skipWs l = '"' :: r0)
    (hk : parseStrChars (r0.length + 1) r0 = some (k, r1))
    (hr1 : skipWs r1 = ':' :: r2)
    (hv : parseGo f .val r2 = some (v, r3)) :
    parseGo (f+1) .fields l = parseGo f (.fieldsRest [(String.mk k, v)]) r3 := by
  simp only [parseGo, hs, hk, hr1, hv]

theorem parseGo_fieldsRest_comma_ok (f : Nat) (acc : List (String × Json))
    {l r0 : List Char} {k : List Char} {r1 r2 : List Char} {v : Json} {r3 : List Char}
    (hs : skipWs l = '"' :: r0)
    (hk : parseStrChars (r0.length + 1) r0 = some (k, r1))
    (hr1 : skipWs r1 = ':' :: r2)
    (hv : parseGo f .val r2 = some (v, r3)) :
    parseGo (f+1) (.fieldsRest acc) (',' :: l) =
      parseGo f (.fieldsRest (acc ++ [(String.mk k, v)])) r3 := by
  have hsw : skipWs (',' :: l) = ',' :: l := skipWs_cons_of_neg (by decide) l
  simp only [parseGo, hsw, hs, hk, hr1, hv]

theorem length_le_escapeString (s : String) : s.data.length ≤ (escapeString s).length := by
  simpa [escapeString] using length_le_escape_length s.data

theorem parseGo_fieldsRest_printed (lvl N : Nat) :
    ∀ (kvs : List (String × Json)), (∀ kv ∈ kvs, RoundTrips N kv.2) →
    ∀ f (acc : List (String × Json)) (rest : List Char), N + kvs.length + 1 ≤ f →
    parseGo f (.fieldsRest acc)
        (printObjTail (lvl+1) kvs ++ '\n' :: (indChars (2*lvl) ++ '}' :: rest))
      = some (.obj (acc ++ kvs), rest) := by
  intro kvs
  induction kvs with
  | nil =>
    intro _ f acc rest hf
    cases f with
    | zero => omega
    | succ f =>
      simp only [printObjTail, List.nil_append, List.append_nil]
      rw [parseGo_fieldsRest_skipWs]
      have hsw : skipWs ('\n' :: (indChars (2*lvl) ++ '}' :: rest)) = '}' :: rest := by
        rw [skipWs_newline, skipWs_ind, skipWs_cons_of_neg (by decide) rest]
      rw [hsw, parseGo_fieldsRest_close]
  | cons kv kvs ih =>
    intro hall f acc rest hf
    obtain ⟨k, v⟩ := kv
    cases f with
    | zero =>
      simp only [List.length_cons] at hf
      omega
    | succ f =>
      have hfx : N + kvs.length + 1 ≤ f := by
        simp only [List.length_cons] at hf
        omega
      have hN : N ≤ f := by omega
      have hvkv : RoundTrips N v := hall (k, v) (List.mem_cons_self _ _)
      have htail : ∀ kv ∈ kvs, RoundTrips N kv.2 := fun kv hm =>
        hall kv (List.mem_cons_of_mem _ hm)
      simp only [printObjTail, List.cons_append, List.append_assoc]
      have hpsl : printStrLit k ++ (':' :: ' ' :: (printJ (lvl+1) v ++
          (printObjTail (lvl+1) kvs ++ '\n' :: (indChars (2*lvl) ++ '}' :: rest)))) =
          '"' :: (escapeString k ++ '"' :: (':' :: ' ' :: (printJ (lvl+1) v ++
            (printObjTail (lvl+1) kvs ++ '\n' :: (indChars (2*lvl) ++ '}' :: rest))))) := by
        simp [printStrLit]
      have hs : skipWs ('\n' :: (indChars (2*(lvl+1)) ++ (printStrLit k ++
          ':' :: ' ' :: (printJ (lvl+1) v ++
            (printObjTail (lvl+1) kvs ++ '\n' :: (indChars (2*lvl) ++ '}' :: rest)))))) =
          '"' :: (escapeString k ++ '"' :: (':' :: ' ' :: (printJ (lvl+1) v ++
            (printObjTail (lvl+1) kvs ++ '\n' :: (indChars (2*lvl) ++ '}' :: rest))))) := by
        rw [skipWs_newline, skipWs_ind, hpsl, skipWs_cons_of_neg (by decide)]
      have hlen : k.data.length < (escapeString k ++ '"' :: (':' :: ' ' :: (printJ (lvl+1) v ++
          (printObjTail (lvl+1) kvs ++ '\n' :: (indChars (2*lvl) ++ '}' :: rest))))).length + 1 := by
        have := length_le_escapeString k
        simp only [List.length_append, List.length_cons]
        omega
      have hk2 := parseStrChars_printStrLit k _ hlen
        (':' :: ' ' :: (printJ (lvl+1) v ++
          (printObjTail (lvl+1) kvs ++ '\n' :: (indChars (2*lvl) ++ '}' :: rest))))
      have hr1 : skipWs (':' :: ' ' :: (printJ (lvl+1) v ++
          (printObjTail (lvl+1) kvs ++ '\n' :: (indChars (2*lvl) ++ '}' :: rest)))) =
          ':' :: (' ' :: (printJ (lvl+1) v ++
            (printObjTail (lvl+1) kvs ++ '\n' :: (indChars (2*lvl) ++ '}' :: rest)))) :=
        skipWs_cons_of_neg (by decide) _
      have hvv : parseGo f .val (' ' :: (printJ (lvl+1) v ++
          (printObjTail (lvl+1) kvs ++ '\n' :: (indChars (2*lvl) ++ '}' :: rest)))) =
          some (v, printObjTail (lvl+1) kvs ++ '\n' :: (indChars (2*lvl) ++ '}' :: rest)) := by
        rw [parseGo_val_space]
        exact hvkv (lvl+1) f _ hN
      rw [parseGo_fieldsRest_comma_ok f acc hs hk2 hr1 hvv]
      rw [show String.mk k.data = k from by cases k; rfl]
      have h := ih htail f (acc ++ [(k, v)]) rest hfx
      simpa using h

theorem roundTrips_obj (N : Nat) (k0 : String) (v0 : Json) (kvs : List (String × Json))
    (hv0 : RoundTrips N v0) (hv : ∀ kv ∈ kvs, RoundTrips N kv.2) :
    RoundTrips (N + kvs.length + 3) (.obj ((k0, v0) :: kvs)) := by
  intro lvl f rest hf
  match f, hf with
  | f+2, hf =>
    have hN : N ≤ f := by omega
    have hfx : N + kvs.length + 1 ≤ f := by omega
    have hps : printJ lvl (.obj ((k0, v0) :: kvs)) ++ rest =
        lbrace :: '\n' :: (indChars (2*(lvl+1)) ++ (printStrLit k0 ++
          ':' :: ' ' :: (printJ (lvl+1) v0 ++
            (printObjTail (lvl+1) kvs ++ '\n' :: (indChars (2*lvl) ++ rbrace :: rest))))) := by
      simp [printJ, List.append_assoc, List.cons_append]
    rw [hps, show lbrace = '{' from rfl, show rbrace = '}' from rfl, parseGo_val_obj_open]
    have hpsl : printStrLit k0 ++ (':' :: ' ' :: (printJ (lvl+1) v0 ++
        (printObjTail (lvl+1) kvs ++ '\n' :: (indChars (2*lvl) ++ '}' :: rest)))) =
        '"' :: (escapeString k0 ++ '"' :: (':' :: ' ' :: (printJ (lvl+1) v0 ++
          (printObjTail (lvl+1) kvs ++ '\n' :: (indChars (2*lvl) ++ '}' :: rest))))) := by
      simp [printStrLit]
    have hs : skipWs ('\n' :: (indChars (2*(lvl+1)) ++ (printStrLit k0 ++
        ':' :: ' ' :: (printJ (lvl+1) v0 ++
          (printObjTail (lvl+1) kvs ++ '\n' :: (indChars (2*lvl) ++ '}' :: rest)))))) =
        '"' :: (escapeString k0 ++ '"' :: (':' :: ' ' :: (printJ (lvl+1) v0 ++
          (printObjTail (lvl+1) kvs ++ '\n' :: (indChars (2*lvl) ++ '}' :: rest))))) := by
      rw [skipWs_newline, skipWs_ind, hpsl, skipWs_cons_of_neg (by decide)]
    have hlen : k0.data.length < (escapeString k0 ++ '"' :: (':' :: ' ' :: (printJ (lvl+1) v0 ++
        (printObjTail (lvl+1) kvs ++ '\n' :: (indChars (2*lvl) ++ '}' :: rest))))).length + 1 := by
      have := length_le_escapeString k0
      simp only [List.length_append, List.length_cons]
      omega
    have hk2 := parseStrChars_printStrLit k0 _ hlen
      (':' :: ' ' :: (printJ (lvl+1) v0 ++
        (printObjTail (lvl+1) kvs ++ '\n' :: (indChars (2*lvl) ++ '}' :: rest))))
    have hr1 : skipWs (':' :: ' ' :: (printJ (lvl+1) v0 ++
        (printObjTail (lvl+1) kvs ++ '\n' :: (indChars (2*lvl) ++ '}' :: rest)))) =
        ':' :: (' ' :: (printJ (lvl+1) v0 ++
          (printObjTail (lvl+1) kvs ++ '\n' :: (indChars (2*lvl) ++ '}' :: rest)))) :=
      skipWs_cons_of_neg (by decide) _
    have hvv : parseGo f .val (' ' :: (printJ (lvl+1) v0 ++
        (printObjTail (lvl+1) kvs ++ '\n' :: (indChars (2*lvl) ++ '}' :: rest)))) =
        some (v0, printObjTail (lvl+1) kvs ++ '\n' :: (indChars (2*lvl) ++ '}' :: rest)) := by
      rw [parseGo_val_space]
      exact hv0 (lvl+1) f _ hN
    rw [parseGo_fields_key_ok f hs hk2 hr1 hvv]
    rw [show String.mk k0.data = k0 from by cases k0; rfl]
    have h := parseGo_fieldsRest_printed lvl N kvs hv f [(k0, v0)] rest hfx
    simpa using h

theorem roundTrips_dumpDomain (d : Domain) : RoundTrips (domNeed d + 6) (dumpDomain d) := by
  have hv0 : RoundTrips (domNeed d) (.str d.baseline) :=
    roundTrips_mono (by unfold domNeed; omega) (roundTrips_str d.baseline)
  have hv : ∀ kv ∈ [("smart_goals", Json.arr (d.smart_goals.map .str)),
      ("tracking_kpis", Json.arr (d.tracking_kpis.map .str)),
      ("evidence_quotes",
        match d.evidence_quotes with
        | none => Json.null
        | some l => Json.arr (l.map .str))],
      RoundTrips (domNeed d) kv.2 := by
    intro kv hkv
    simp only [List.mem_cons, List.not_mem_nil, or_false] at hkv
    rcases hkv with h | h | h <;> subst h
    · exact roundTrips_mono (by unfold domNeed; omega) (roundTrips_strArr d.smart_goals)
    · exact roundTrips_mono (by unfold domNeed; omega) (roundTrips_strArr d.tracking_kpis)
    · rcases hE : d.evidence_quotes with _ | l
      · simp only [hE]
        exact roundTrips_mono (by unfold domNeed; omega) roundTrips_null
      · simp only [hE]
        refine roundTrips_mono ?_ (roundTrips_strArr l)
        simp only [domNeed, hE]
        omega
  exact roundTrips_mono (by simp) (roundTrips_obj (domNeed d) ("baseline")
    (.str d.baseline) _ hv0 hv)

theorem roundTrips_dumpPlan (p : LifestylePlan) :
    RoundTrips (planNeed p + 8) (dumpPlan p) := by
  have hv0 : RoundTrips (planNeed p) (dumpDomain p.healthy_eating) :=
    roundTrips_mono (by unfold planNeed; omega) (roundTrips_dumpDomain p.healthy_eating)
  have hv : ∀ kv ∈ [("physical_activity", dumpDomain p.physical_activity),
      ("substances", dumpDomain p.substances),
      ("stress_management", dumpDomain p.stress_management),
      ("sleep", dumpDomain p.sleep),
      ("social_connections", dumpDomain p.social_connections)],
      RoundTrips (planNeed p) kv.2 := by
    intro kv hkv
    simp only [List.mem_cons, List.not_mem_nil, or_false] at hkv
    rcases hkv with h | h | h | h | h <;> subst h
    · exact roundTrips_mono (by unfold planNeed; omega)
        (roundTrips_dumpDomain p.physical_activity)
    · exact roundTrips_mono (by unfold planNeed; omega) (roundTrips_dumpDomain p.substances)
    · exact roundTrips_mono (by unfold planNeed; omega)
        (roundTrips_dumpDomain p.stress_management)
    · exact roundTrips_mono (by unfold planNeed; omega) (roundTrips_dumpDomain p.sleep)
    · exact roundTrips_mono (by unfold planNeed; omega)
        (roundTrips_dumpDomain p.social_connections)
  exact roundTrips_mono (by simp) (roundTrips_obj (planNeed p) ("healthy_eating")
    (dumpDomain p.healthy_eating) _ hv0 hv)

theorem printStrLit_length (s : String) :
    (printStrLit s).length = (escapeString s).length + 2 := by
  simp [printStrLit]

theorem printArrTail_strs_length (lvl : Nat) (xs : List String) :
    2 * xs.length ≤ (printArrTail lvl (xs.map .str)).length := by
  induction xs with
  | nil => simp [printArrTail]
  | cons x xs ih =>
    simp only [List.map_cons, printArrTail, printJ, List.length_cons, List.length_append,
      printStrLit_length]
    omega

theorem printJ_strArr_length (lvl : Nat) (l : List String) :
    2 * l.length + 2 ≤ (printJ lvl (.arr (l.map .str))).length := by
  cases l with
  | nil => simp [printJ]
  | cons x xs =>
    have h3 := printArrTail_strs_length (lvl+1) xs
    simp only [List.map_cons, printJ, List.length_cons, List.length_append,
      printStrLit_length, indChars, List.length_replicate]
    omega

theorem printJ_evidence_length (lv : Nat) (e : Option (List String)) :
    2 * (match e with | none => 0 | some l => l.length) + 2 ≤
      (printJ lv (match e with
        | none => Json.null
        | some l => Json.arr (l.map .str))).length := by
  cases e with
  | none =>
    have h4 : (printJ lv Json.null).length = 4 := rfl
    simp [h4]
  | some l => exact printJ_strArr_length lv l

theorem printJ_dumpDomain_length (lvl : Nat) (d : Domain) :
    domNeed d + 7 ≤ (printJ lvl (dumpDomain d)).length := by
  have h1 := printJ_strArr_length (lvl+1) d.smart_goals
  have h2 := printJ_strArr_length (lvl+1) d.tracking_kpis
  have h3 := printJ_evidence_length (lvl+1) d.evidence_quotes
  simp only [dumpDomain, printJ, printObjTail, List.length_append, List.length_cons,
    List.length_nil, indChars, List.length_replicate, printStrLit_length]
  simp only [domNeed]
  omega

theorem printJ_dumpPlan_length (p : LifestylePlan) :
    planNeed p + 7 ≤ (printJ 0 (dumpPlan p)).length := by
  have hs1 := printJ_strArr_length (0+1+1) p.healthy_eating.smart_goals
  have ht1 := printJ_strArr_length (0+1+1) p.healthy_eating.tracking_kpis
  have he1 := printJ_evidence_length (0+1+1) p.healthy_eating.evidence_quotes
  have hs2 := printJ_strArr_length (0+1+1) p.physical_activity.smart_goals
  have ht2 := printJ_strArr_length (0+1+1) p.physical_activity.tracking_kpis
  have he2 := printJ_evidence_length (0+1+1) p.physical_activity.evidence_quotes
  have hs3 := printJ_strArr_length (0+1+1) p.substances.smart_goals
  have ht3 := printJ_strArr_length (0+1+1) p.substances.tracking_kpis
  have he3 := printJ_evidence_length (0+1+1) p.substances.evidence_quotes
  have hs4 := printJ_strArr_length (0+1+1) p.stress_management.smart_goals
  have ht4 := printJ_strArr_length (0+1+1) p.stress_management.tracking_kpis
  have he4 := printJ_evidence_length (0+1+1) p.stress_management.evidence_quotes
  have hs5 := printJ_strArr_length (0+1+1) p.sleep.smart_goals
  have ht5 := printJ_strArr_length (0+1+1) p.sleep.tracking_kpis
  have he5 := printJ_evidence_length (0+1+1) p.sleep.evidence_quotes
  have hs6 := printJ_strArr_length (0+1+1) p.social_connections.smart_goals
  have ht6 := printJ_strArr_length (0+1+1) p.social_connections.tracking_kpis
  have he6 := printJ_evidence_length (0+1+1) p.social_connections.evidence_quotes
  simp only [dumpPlan, printJ, printObjTail, List.length_append, List.length_cons,
    List.length_nil, indChars, List.length_replicate, printStrLit_length]
  simp only [planNeed, domNeed]
  omega

theorem validateStrListAux_map (l : List String) : validateStrListAux (l.map .str) = .ok l := by
  induction l with
  | nil => rfl
  | cons x xs ih => simp [validateStrListAux, validateStrField, ih]

theorem validateDomain_dump (d : Domain) : validateDomain (dumpDomain d) = .ok d := by
  obtain ⟨b, sg, tk, ev⟩ := d
  cases ev with
  | none =>
    simp [validateDomain, dumpDomain, requiredField, dictGet, exBind,
      validateStrField, validateStrList, validateStrListAux_map, validateOptStrList]
  | some l =>
    simp [validateDomain, dumpDomain, requiredField, dictGet, exBind,
      validateStrField, validateStrList, validateStrListAux_map, validateOptStrList]

theorem validateLifestylePlan_dump (p : LifestylePlan) :
    validateLifestylePlan (dumpPlan p) = .ok p := by
  obtain ⟨d1, d2, d3, d4, d5, d6⟩ := p
  simp [validateLifestylePlan, dumpPlan, requiredField, dictGet, exBind, validateDomain_dump]

theorem parseJson_dumpPlan (p : LifestylePlan) :
    parseJson (pyJsonDumpIndent2 (dumpPlan p)) = some (dumpPlan p) := by
  have hlen := printJ_dumpPlan_length p
  have hdata : (pyJsonDumpIndent2 (dumpPlan p)).data = printJ 0 (dumpPlan p) := rfl
  unfold parseJson
  rw [hdata]
  have h := roundTrips_dumpPlan p 0 ((printJ 0 (dumpPlan p)).length + 1) [] (by omega)
  rw [List.append_nil] at h
  rw [h]
  simp [skipWs]

/-- **C8** (confirmed).  Round trip of the success artifact set: for every
output directory, session id, transcript and plan, `save_session_outputs`
writes `session_plan.json` with exactly the `json.dump(plan.model_dump(),
indent=2)` text; reading that text back through `json.loads` reproduces
the dumped object, and validating it as a `LifestylePlan` succeeds and
returns a plan structurally equal to the one written (so all six domains
are present). -/
theorem C8_plan_roundtrip (output_dir session_id : String)
    (transcript : SessionTranscript) (plan : LifestylePlan) :
    ("session_plan.json", pyJsonDumpIndent2 (dumpPlan plan)) ∈
        (save_session_outputs output_dir session_id transcript plan).2 ∧
    parseJson (pyJsonDumpIndent2 (dumpPlan plan)) = some (dumpPlan plan) ∧
    validateLifestylePlan (dumpPlan plan) = .ok plan :=
  ⟨by simp [save_session_outputs], parseJson_dumpPlan plan, validateLifestylePlan_dump plan⟩
